import Mathlib

/-!
Verification development for the pact mock-server / contract-matching core.

The repository's Python sources are driver scripts that sequence calls into
the native pact FFI engine (interaction registration, matching-rule
evaluation, mock HTTP serving, message reification, pact-file
serialization).  The engine itself is not part of the given sources, so the
definitions below model it from the specification document; each component
definition notes what it models.  FFI entry points keep their source names
(`pactffi_...`).
-/

namespace PactSpec

/-- Modelled from the spec: a structured (JSON-like) raw value as produced by
a live request: mapping, sequence or scalar. -/
inductive RawVal where
  | str (s : String)
  | num (n : Int)
  | bool (b : Bool)
  | obj (fields : List (String × RawVal))
  | arr (items : List RawVal)
deriving Repr

/-- Modelled from the spec: a MatchingRule is a tagged variant over
Equality, Type and Regex(pattern), attached to a node in a structured
body. -/
inductive MatchingRule where
  | equality
  | type
  | regex (pattern : String)
deriving Repr, DecidableEq

/-- Modelled from the spec: an annotated expected value: a structured value
where any node may carry a MatchingRule; absence of a rule implies literal
equality. -/
inductive AnnVal where
  | str (rule : Option MatchingRule) (s : String)
  | num (rule : Option MatchingRule) (n : Int)
  | bool (rule : Option MatchingRule) (b : Bool)
  | obj (rule : Option MatchingRule) (fields : List (String × AnnVal))
  | arr (rule : Option MatchingRule) (items : List AnnVal)
deriving Repr

/-- The MatchingRule carried by the root node of an annotated value. -/
def ruleOf : AnnVal → Option MatchingRule
  | .str r _ => r
  | .num r _ => r
  | .bool r _ => r
  | .obj r _ => r
  | .arr r _ => r

/-- Replace the rule carried by the root node of an annotated value. -/
def setRule (r : MatchingRule) : AnnVal → AnnVal
  | .str _ s => .str (some r) s
  | .num _ n => .num (some r) n
  | .bool _ b => .bool (some r) b
  | .obj _ fields => .obj (some r) fields
  | .arr _ items => .arr (some r) items

mutual
/-- Boolean deep equality on raw values. -/
def beqRaw : RawVal → RawVal → Bool
  | .str s, .str t => s == t
  | .num n, .num m => n == m
  | .bool b, .bool c => b == c
  | .obj fs, .obj gs => beqRawFields fs gs
  | .arr xs, .arr ys => beqRawItems xs ys
  | _, _ => false

/-- Boolean equality on object field lists. -/
def beqRawFields : List (String × RawVal) → List (String × RawVal) → Bool
  | [], [] => true
  | (k, v) :: rest, (k2, v2) :: rest2 => k == k2 && beqRaw v v2 && beqRawFields rest rest2
  | _, _ => false

/-- Boolean equality on array item lists. -/
def beqRawItems : List RawVal → List RawVal → Bool
  | [], [] => true
  | v :: rest, v2 :: rest2 => beqRaw v v2 && beqRawItems rest rest2
  | _, _ => false
end

mutual
/-- Modelled from the spec: reification resolves every matching-rule
placeholder of an annotated value to its deterministic representative: the
embedded literal example already present at the node (Type and Equality use
the example; Regex uses the embedded example literal).  The same traversal
also serves as the rule-erasure of an expected value. -/
def reifyVal : AnnVal → RawVal
  | .str _ s => .str s
  | .num _ n => .num n
  | .bool _ b => .bool b
  | .obj _ fields => .obj (reifyFields fields)
  | .arr _ items => .arr (reifyItems items)

/-- Reify every field of an annotated object. -/
def reifyFields : List (String × AnnVal) → List (String × RawVal)
  | [] => []
  | (k, v) :: rest => (k, reifyVal v) :: reifyFields rest

/-- Reify every item of an annotated array. -/
def reifyItems : List AnnVal → List RawVal
  | [] => []
  | v :: rest => reifyVal v :: reifyItems rest
end

mutual
/-- Rule-free embedding of a raw value back into annotated values. -/
def annOfRaw : RawVal → AnnVal
  | .str s => .str none s
  | .num n => .num none n
  | .bool b => .bool none b
  | .obj fields => .obj none (annOfRawFields fields)
  | .arr items => .arr none (annOfRawItems items)

/-- Rule-free embedding of object fields. -/
def annOfRawFields : List (String × RawVal) → List (String × AnnVal)
  | [] => []
  | (k, v) :: rest => (k, annOfRaw v) :: annOfRawFields rest

/-- Rule-free embedding of array items. -/
def annOfRawItems : List RawVal → List AnnVal
  | [] => []
  | v :: rest => annOfRaw v :: annOfRawItems rest
end

/-- Opening brace character, kept as a named constant. -/
def lbrace : Char := Char.ofNat 123

/-- Closing brace character, kept as a named constant. -/
def rbrace : Char := Char.ofNat 125

mutual
/-- JSON-style rendering of a raw value (string escaping elided). -/
def jsonRaw : RawVal → String
  | .str s => "\"" ++ s ++ "\""
  | .num n => toString n
  | .bool b => if b then "true" else "false"
  | .obj fields => String.singleton lbrace ++ jsonFields fields ++ String.singleton rbrace
  | .arr items => "[" ++ jsonItems items ++ "]"

/-- JSON-style rendering of object fields. -/
def jsonFields : List (String × RawVal) → String
  | [] => ""
  | [(k, v)] => "\"" ++ k ++ "\":" ++ jsonRaw v
  | (k, v) :: rest => "\"" ++ k ++ "\":" ++ jsonRaw v ++ "," ++ jsonFields rest

/-- JSON-style rendering of array items. -/
def jsonItems : List RawVal → String
  | [] => ""
  | [v] => jsonRaw v
  | v :: rest => jsonRaw v ++ "," ++ jsonItems rest
end

/-- Modelled from the spec: the stringified form of an actual value, as used
by the Regex rule: a string actual is used verbatim, other values render as
JSON-style text. -/
def stringifyRaw : RawVal → String
  | .str s => s
  | v => jsonRaw v

/-- The five runtime types distinguished by the Type matching rule. -/
inductive JType where
  | string
  | number
  | boolean
  | object
  | array
deriving Repr, DecidableEq

/-- Runtime type of a raw value. -/
def typeOfRaw : RawVal → JType
  | .str _ => .string
  | .num _ => .number
  | .bool _ => .boolean
  | .obj _ => .object
  | .arr _ => .array

/-- Runtime type of an annotated expected value's declared example. -/
def typeOfAnn : AnnVal → JType
  | .str _ _ => .string
  | .num _ _ => .number
  | .bool _ _ => .boolean
  | .obj _ _ => .object
  | .arr _ _ => .array

/-- Display name of a runtime type. -/
def typeName : JType → String
  | .string => "string"
  | .number => "number"
  | .boolean => "boolean"
  | .object => "object"
  | .array => "array"

/-! ## Regular expressions

Modelled from the spec: the Regex matching rule requires the stringified
actual value to fully match the given pattern.  The engine below parses a
conventional pattern syntax (literals, escapes, character classes, groups,
alternation and the usual quantifiers, with anchors read as the full-match
boundaries) and matches by language derivatives. -/

/-- One member of a character class: a single character or a range. -/
inductive ClassItem where
  | single (c : Char)
  | range (lo hi : Char)
deriving Repr, DecidableEq

/-- Regular expression syntax.  A character-set atom carries a negation flag
and its items; the any-character atom is the negated empty set. -/
inductive RE where
  | fail
  | eps
  | cls (neg : Bool) (items : List ClassItem)
  | seq (a b : RE)
  | alt (a b : RE)
  | star (a : RE)
deriving Repr, DecidableEq

/-- Whether a character satisfies one class item. -/
def classItemMatches (c : Char) : ClassItem → Bool
  | .single d => c == d
  | .range lo hi => decide (lo ≤ c) && decide (c ≤ hi)

/-- Whether a character satisfies a (possibly negated) character set. -/
def classMatches (neg : Bool) (items : List ClassItem) (c : Char) : Bool :=
  let base := items.any (classItemMatches c)
  if neg then !base else base

/-- Whether a regular expression accepts the empty string. -/
def nullable : RE → Bool
  | .fail => false
  | .eps => true
  | .cls _ _ => false
  | .seq a b => nullable a && nullable b
  | .alt a b => nullable a || nullable b
  | .star _ => true

/-- Language derivative of a regular expression by one character. -/
def deriv (r : RE) (c : Char) : RE :=
  match r with
  | .fail => .fail
  | .eps => .fail
  | .cls neg items => if classMatches neg items c then .eps else .fail
  | .seq a b =>
      if nullable a then .alt (.seq (deriv a c) b) (deriv b c)
      else .seq (deriv a c) b
  | .alt a b => .alt (deriv a c) (deriv b c)
  | .star a => .seq (deriv a c) (.star a)

/-- Full-string matching by iterated derivatives. -/
def reMatch (r : RE) (s : List Char) : Bool :=
  nullable (s.foldl deriv r)

/-- The digit class, used for the escape form of a digit. -/
def digitClass : RE := .cls false [.range '0' '9']

/-- The word-character class. -/
def wordClass : RE :=
  .cls false [.range 'a' 'z', .range 'A' 'Z', .range '0' '9', .single '_']

/-- The whitespace class. -/
def spaceClass : RE := .cls false [.single ' ', .single '\t', .single '\n', .single '\r']

/-- Regular expression denoted by an escaped pattern character. -/
def escapedRE (c : Char) : RE :=
  if c == 'd' then digitClass
  else if c == 'w' then wordClass
  else if c == 's' then spaceClass
  else .cls false [.single c]

/-- Exactly n copies of a regular expression in sequence. -/
def repeatRE (r : RE) : Nat → RE
  | 0 => .eps
  | n + 1 => .seq r (repeatRE r n)

/-- At most n copies of a regular expression in sequence. -/
def upToRE (r : RE) : Nat → RE
  | 0 => .eps
  | n + 1 => .alt .eps (.seq r (upToRE r n))

/-- One character of a character class body, undoing a backslash escape. -/
def parseClassChar : List Char → Option (Char × List Char)
  | '\\' :: c :: rest => some (c, rest)
  | ']' :: _ => none
  | c :: rest => some (c, rest)
  | [] => none

/-- Items of a character class body, up to the closing bracket. -/
def parseClassItems : Nat → List Char → Option (List ClassItem × List Char)
  | 0, _ => none
  | fuel + 1, cs =>
    match cs with
    | [] => none
    | ']' :: _ => some ([], cs)
    | _ => do
      let (c1, rest) ← parseClassChar cs
      match rest with
      | '-' :: d :: rest2 =>
        if d == ']' then do
          let (items, rest3) ← parseClassItems fuel rest
          some (.single c1 :: items, rest3)
        else do
          let (items, rest3) ← parseClassItems fuel rest2
          some (.range c1 d :: items, rest3)
      | _ => do
        let (items, rest3) ← parseClassItems fuel rest
        some (.single c1 :: items, rest3)

/-- A decimal number in a counted quantifier. -/
def parseDigits : Nat → List Char → Nat → Option (Nat × List Char)
  | 0, _, _ => none
  | fuel + 1, c :: rest, acc =>
      if c.isDigit then parseDigits fuel rest (acc * 10 + (c.toNat - 48))
      else some (acc, c :: rest)
  | _ + 1, [], acc => some (acc, [])

/-- Expansion of a counted quantifier: an exact count, an open range, or a
bounded range. -/
def boundedRE (r : RE) (lo : Nat) : Option Nat → RE
  | none => repeatRE r lo
  | some hi => .seq (repeatRE r lo) (upToRE r (hi - lo))

/-- The body of a counted quantifier after the opening brace, returning the
expanded expression and the rest of the pattern. -/
def parseBounds (fuel : Nat) (r : RE) (cs : List Char) : Option (RE × List Char) :=
  match cs with
  | [] => none
  | c :: _ =>
    if c.isDigit then do
      let (lo, rest) ← parseDigits fuel cs 0
      match rest with
      | ',' :: rest2 =>
        match rest2 with
        | [] => none
        | d :: _ =>
          if d == rbrace then some (.seq (repeatRE r lo) (.star r), rest2.tail)
          else if d.isDigit then do
            let (hi, rest3) ← parseDigits fuel rest2 0
            match rest3 with
            | e :: rest4 => if e == rbrace then some (boundedRE r lo (some hi), rest4) else none
            | [] => none
          else none
      | d :: rest2 => if d == rbrace then some (boundedRE r lo none, rest2) else none
      | [] => none
    else none

mutual
/-- Alternation level of the pattern grammar. -/
def parseAlt : Nat → List Char → Option (RE × List Char)
  | 0, _ => none
  | fuel + 1, cs => do
    let (r, rest) ← parseSeq fuel cs
    match rest with
    | '|' :: rest2 => do
      let (r2, rest3) ← parseAlt fuel rest2
      some (.alt r r2, rest3)
    | _ => some (r, rest)

/-- Concatenation level of the pattern grammar. -/
def parseSeq : Nat → List Char → Option (RE × List Char)
  | 0, _ => none
  | fuel + 1, cs =>
    match cs with
    | [] => some (.eps, [])
    | ')' :: _ => some (.eps, cs)
    | '|' :: _ => some (.eps, cs)
    | _ => do
      let (r, rest) ← parseFactor fuel cs
      let (r2, rest2) ← parseSeq fuel rest
      some (.seq r r2, rest2)

/-- One quantifiable factor of the pattern grammar. -/
def parseFactor : Nat → List Char → Option (RE × List Char)
  | 0, _ => none
  | fuel + 1, cs => do
    let (r, rest) ← parseAtom fuel cs
    parseQuants fuel r rest

/-- Zero or more quantifiers applied to a parsed factor. -/
def parseQuants : Nat → RE → List Char → Option (RE × List Char)
  | 0, _, _ => none
  | fuel + 1, r, cs =>
    match cs with
    | '*' :: rest => parseQuants fuel (.star r) rest
    | '+' :: rest => parseQuants fuel (.seq r (.star r)) rest
    | '?' :: rest => parseQuants fuel (.alt r .eps) rest
    | c :: rest =>
      if c == lbrace then do
        let (r2, rest2) ← parseBounds (fuel + 1) r rest
        parseQuants fuel r2 rest2
      else some (r, cs)
    | [] => some (r, [])

/-- One atom of the pattern grammar: a group, a class, a wildcard, an
anchor, an escape or a literal character. -/
def parseAtom : Nat → List Char → Option (RE × List Char)
  | 0, _ => none
  | fuel + 1, cs =>
    match cs with
    | '(' :: rest => do
      let (r, rest2) ← parseAlt fuel rest
      match rest2 with
      | ')' :: rest3 => some (r, rest3)
      | _ => none
    | '[' :: '^' :: rest => do
      let (items, rest2) ← parseClassItems (fuel + 1) rest
      match rest2 with
      | ']' :: rest3 => some (.cls true items, rest3)
      | _ => none
    | '[' :: rest => do
      let (items, rest2) ← parseClassItems (fuel + 1) rest
      match rest2 with
      | ']' :: rest3 => some (.cls false items, rest3)
      | _ => none
    | '.' :: rest => some (.cls true [], rest)
    | '^' :: rest => some (.eps, rest)
    | '$' :: rest => some (.eps, rest)
    | '\\' :: c :: rest => some (escapedRE c, rest)
    | c :: rest =>
      if c == '*' || c == '+' || c == '?' || c == ')' || c == '|' || c == ']'
          || c == lbrace || c == rbrace then none
      else some (.cls false [.single c], rest)
    | [] => none
end

/-- Parse a whole pattern string into a regular expression. -/
def parseRegex (pattern : String) : Option RE :=
  let cs := pattern.data
  match parseAlt ((cs.length + 2) * (cs.length + 2)) cs with
  | some (r, []) => some r
  | _ => none

/-- Modelled from the spec: full-match test of a stringified actual value
against a Regex rule's pattern; an unparsable pattern matches nothing. -/
def regexFullMatch (pattern s : String) : Bool :=
  match parseRegex pattern with
  | some r => reMatch r s.data
  | none => false

/-! ## Matching Rule Evaluator -/

/-- Modelled from the spec: one observed discrepancy: the path, the
expected value or rule, the actual value, and a human-readable
explanation. -/
structure Mismatch where
  path : List String
  expected : String
  actual : String
  explanation : String
deriving Repr, DecidableEq

/-- Mismatches produced by a single rule check at one node.  Equality
requires the actual to deep-equal the rule node's literal value; Type
requires equal runtime types; Regex requires the stringified actual to
fully match the pattern, a failure citing the pattern and the actual
string. -/
def ruleCheck (path : List String) (r : MatchingRule) (e : AnnVal) (a : RawVal) :
    List Mismatch :=
  match r with
  | .regex pat =>
      if regexFullMatch pat (stringifyRaw a) then []
      else [⟨path, pat, stringifyRaw a, "Expected to match the regular expression"⟩]
  | .type =>
      if typeOfAnn e == typeOfRaw a then []
      else [⟨path, typeName (typeOfAnn e), typeName (typeOfRaw a),
             "Expected a value of the same type"⟩]
  | .equality =>
      if beqRaw (reifyVal e) a then []
      else [⟨path, stringifyRaw (reifyVal e), stringifyRaw a, "Expected to be equal"⟩]

/-- Look up an object field by key, first occurrence. -/
def lookupField (k : String) : List (String × RawVal) → Option RawVal
  | [] => none
  | (k2, v) :: rest => if k2 == k then some v else lookupField k rest

/-- Keys of an annotated object's field list. -/
def annKeys (fs : List (String × AnnVal)) : List String := fs.map (·.1)

/-- Strict-mode mismatches for actual keys absent from the expected keys. -/
def extraKeyMismatches (path : List String) (ks : List String)
    (afields : List (String × RawVal)) : List Mismatch :=
  (afields.filter (fun p => !ks.contains p.1)).map
    (fun p => ⟨path ++ [p.1], "", stringifyRaw p.2, "Unexpected key"⟩)

mutual
/-- Modelled from the spec: the Evaluator's walk of an annotated expected
value against an actual value at a path.  A node carrying a rule is settled
by that rule alone; a rule-free node requires literal equality, walking
structured values node-by-node in path order.  A missing expected key is
always a Mismatch; an actual key absent from the expected object is a
Mismatch only in strict mode. -/
def evalAt (strict : Bool) (path : List String) (e : AnnVal) (a : RawVal) :
    List Mismatch :=
  match ruleOf e with
  | some r => ruleCheck path r e a
  | none =>
    match e, a with
    | .str _ s, .str t =>
        if s == t then [] else [⟨path, s, t, "Expected string to equal"⟩]
    | .num _ n, .num m =>
        if n == m then []
        else [⟨path, toString n, toString m, "Expected number to equal"⟩]
    | .bool _ b, .bool c =>
        if b == c then []
        else [⟨path, stringifyRaw (.bool b), stringifyRaw (.bool c),
               "Expected boolean to equal"⟩]
    | .obj _ fields, .obj afields =>
        (if strict then extraKeyMismatches path (annKeys fields) afields else []) ++
          evalFields strict path fields afields
    | .arr _ items, .arr aitems => evalItems strict path 0 items aitems
    | e2, a2 =>
        [⟨path, typeName (typeOfAnn e2), typeName (typeOfRaw a2),
          "Type mismatch"⟩]

/-- Walk the expected object's fields in order, looking each key up in the
actual object. -/
def evalFields (strict : Bool) (path : List String) :
    List (String × AnnVal) → List (String × RawVal) → List Mismatch
  | [], _ => []
  | (k, ev) :: rest, afields =>
      (match lookupField k afields with
       | some av => evalAt strict (path ++ [k]) ev av
       | none => [⟨path ++ [k], stringifyRaw (reifyVal ev), "",
                   "Expected key to be present"⟩]) ++
        evalFields strict path rest afields

/-- Walk the expected array's items in order against the actual array. -/
def evalItems (strict : Bool) (path : List String) (i : Nat) :
    List AnnVal → List RawVal → List Mismatch
  | [], _ => []
  | ev :: rest, [] =>
      ⟨path ++ [toString i], stringifyRaw (reifyVal ev), "",
        "Expected an element but actual array is shorter"⟩ ::
        evalItems strict path (i + 1) rest []
  | ev :: rest, av :: arest =>
      evalAt strict (path ++ [toString i]) ev av ++
        evalItems strict path (i + 1) rest arest
end

/-- Modelled from the spec: the Evaluator's contract
`evaluate(expected, actual)` with the documented strict-mode configuration
flag, producing the ordered mismatch sequence from the root. -/
def evaluate (strict : Bool) (e : AnnVal) (a : RawVal) : List Mismatch :=
  evalAt strict [] e a

mutual
/-- Pre-order listing of the paths of an annotated structure. -/
def preAt (path : List String) : AnnVal → List (List String)
  | .obj _ fields => path :: preFields path fields
  | .arr _ items => path :: preItems path 0 items
  | _ => [path]

/-- Pre-order listing for object fields. -/
def preFields (path : List String) : List (String × AnnVal) → List (List String)
  | [] => []
  | (k, v) :: rest => preAt (path ++ [k]) v ++ preFields path rest

/-- Pre-order listing for array items. -/
def preItems (path : List String) (i : Nat) : List AnnVal → List (List String)
  | [] => []
  | v :: rest => preAt (path ++ [toString i]) v ++ preItems path (i + 1) rest
end

/-- Pre-order listing of the paths of an expected structure, from the root. -/
def preorderPaths (e : AnnVal) : List (List String) := preAt [] e

/-! ## Interaction Store -/

/-- Modelled from the spec: the expected request side of an HTTP
interaction: method, path, query, headers and an optional matching-rule
annotated body. -/
structure Request where
  method : String
  path : String
  query : String
  headers : List (String × String)
  body : Option AnnVal
deriving Repr

/-- Modelled from the spec: the scripted response side of an HTTP
interaction. -/
structure Response where
  status : Nat
  headers : List (String × String)
  body : Option AnnVal
deriving Repr

/-- Modelled from the spec: one HTTP interaction: description, optional
provider state, expected request and scripted response. -/
structure Interaction where
  description : String
  providerState : Option String
  request : Request
  response : Response
deriving Repr

/-- Modelled from the spec: one Message interaction: content type,
matching-rule annotated contents, provider state and description of the
event. -/
structure Message where
  description : String
  providerState : Option String
  contentType : String
  contents : AnnVal
deriving Repr

/-- Modelled from the spec: a Pact identifies a consumer and a provider and
owns an ordered sequence of interactions, message interactions, and
metadata key/value pairs. -/
structure Pact where
  consumer : String
  provider : String
  interactions : List Interaction
  messages : List Message
  metadata : List (String × String)
deriving Repr

/-- A freshly created interaction, before any setter ran. -/
def emptyInteraction (description : String) : Interaction :=
  ⟨description, none, ⟨"", "", "", [], none⟩, ⟨200, [], none⟩⟩

/-- A freshly created message, before any setter ran. -/
def emptyMessage (description : String) : Message :=
  ⟨description, none, "", .str none ""⟩

/-- A registry entry owning one interaction, addressed by its generated
handle and remembering the owning pact handle. -/
structure InteractionEntry where
  handle : Nat
  owner : Nat
  interaction : Interaction
deriving Repr

/-- A registry entry owning one message interaction. -/
structure MessageEntry where
  handle : Nat
  owner : Nat
  message : Message
deriving Repr

/-- Modelled from the spec: the engine-owned registry behind the opaque
integer handles: an arena of pact, interaction and message entries
addressed by generated identifiers, with handle validity checked on every
call and invalid handles routed to a silent no-op. -/
structure Store where
  pacts : List (Nat × Pact)
  interactions : List InteractionEntry
  messages : List MessageEntry
  nextHandle : Nat
deriving Repr

/-- The store before any registration; handle 0 is never allocated, so it
is invalid everywhere. -/
def emptyStore : Store := ⟨[], [], [], 1⟩

/-- Whether an interaction handle addresses a live entry. -/
def validInteraction (st : Store) (h : Nat) : Bool :=
  st.interactions.any (fun e => e.handle == h)

/-- Whether a message handle addresses a live entry. -/
def validMessage (st : Store) (h : Nat) : Bool :=
  st.messages.any (fun e => e.handle == h)

/-- Whether a pact handle addresses a live entry. -/
def validPact (st : Store) (h : Nat) : Bool :=
  st.pacts.any (fun e => e.1 == h)

/-- `pactffi_new_pact`: register a consumer/provider pair, returning the
new pact handle. -/
def pactffi_new_pact (st : Store) (consumer provider : String) : Store × Nat :=
  let h := st.nextHandle
  ({ st with pacts := st.pacts ++ [(h, ⟨consumer, provider, [], [], []⟩)],
             nextHandle := h + 1 }, h)

/-- Update the pact addressed by a handle; a no-op on an invalid handle. -/
def updatePact (st : Store) (h : Nat) (f : Pact → Pact) : Store :=
  { st with pacts := st.pacts.map (fun e => if e.1 == h then (e.1, f e.2) else e) }

/-- Update the interaction addressed by a handle; a no-op on an invalid
handle. -/
def updateInteraction (st : Store) (h : Nat) (f : Interaction → Interaction) : Store :=
  let upd := fun (e : InteractionEntry) =>
    if e.handle == h then { e with interaction := f e.interaction } else e
  { st with interactions := st.interactions.map upd }

/-- Update the message addressed by a handle; a no-op on an invalid
handle. -/
def updateMessage (st : Store) (h : Nat) (f : Message → Message) : Store :=
  let upd := fun (e : MessageEntry) =>
    if e.handle == h then { e with message := f e.message } else e
  { st with messages := st.messages.map upd }

/-- `pactffi_new_interaction`: register a new interaction under a pact and
return its handle; an invalid pact handle yields the invalid handle 0 and
leaves the store unchanged. -/
def pactffi_new_interaction (st : Store) (pact : Nat) (description : String) :
    Store × Nat :=
  if validPact st pact then
    let h := st.nextHandle
    let entries := st.interactions ++ [⟨h, pact, emptyInteraction description⟩]
    ({ st with interactions := entries, nextHandle := h + 1 }, h)
  else (st, 0)

/-- `pactffi_new_message`: register a new message under a pact and return
its handle; an invalid pact handle yields the invalid handle 0. -/
def pactffi_new_message (st : Store) (pact : Nat) (description : String) :
    Store × Nat :=
  if validPact st pact then
    let h := st.nextHandle
    let entries := st.messages ++ [⟨h, pact, emptyMessage description⟩]
    ({ st with messages := entries, nextHandle := h + 1 }, h)
  else (st, 0)

/-- `pactffi_with_pact_metadata`: record one metadata key/value pair under
a namespace on the pact. -/
def pactffi_with_pact_metadata (st : Store) (pact : Nat) (ns key value : String) :
    Store :=
  updatePact st pact (fun p =>
    { p with metadata := p.metadata ++ [(ns ++ ":" ++ key, value)] })

/-- Replace the first binding of a header name, or append it. -/
def setHeader (name value : String) : List (String × String) → List (String × String)
  | [] => [(name, value)]
  | (k, v) :: rest =>
      if k == name then (k, value) :: rest else (k, v) :: setHeader name value rest

/-- `pactffi_upon_receiving`: set the interaction's description. -/
def pactffi_upon_receiving (st : Store) (h : Nat) (description : String) : Store :=
  updateInteraction st h (fun i => { i with description := description })

/-- `pactffi_given`: set the interaction's provider state. -/
def pactffi_given (st : Store) (h : Nat) (state : String) : Store :=
  updateInteraction st h (fun i => { i with providerState := some state })

/-- `pactffi_with_request`: set the expected request's method and path. -/
def pactffi_with_request (st : Store) (h : Nat) (method path : String) : Store :=
  updateInteraction st h (fun i =>
    { i with request := { i.request with method := method, path := path } })

/-- `pactffi_with_header_v2`: set one header of the request part (0) or the
response part; the index argument of the source addresses repeated headers
and is not modelled. -/
def pactffi_with_header_v2 (st : Store) (h : Nat) (part : Nat) (name : String)
    (index : Nat) (value : String) : Store :=
  updateInteraction st h (fun i =>
    if part == 0 then
      { i with request := { i.request with headers := setHeader name value i.request.headers } }
    else
      { i with response := { i.response with headers := setHeader name value i.response.headers } })

/-- `pactffi_with_body`: set the body of the request part (0) or the
response part, already decoded into a structured annotated value. -/
def pactffi_with_body (st : Store) (h : Nat) (part : Nat) (contentType : String)
    (body : AnnVal) : Store :=
  updateInteraction st h (fun i =>
    if part == 0 then { i with request := { i.request with body := some body } }
    else { i with response := { i.response with body := some body } })

/-- `pactffi_response_status`: set the scripted response status. -/
def pactffi_response_status (st : Store) (h : Nat) (status : Nat) : Store :=
  updateInteraction st h (fun i =>
    { i with response := { i.response with status := status } })

/-- `pactffi_message_expects_to_receive`: set the message's description. -/
def pactffi_message_expects_to_receive (st : Store) (h : Nat) (description : String) :
    Store :=
  updateMessage st h (fun m => { m with description := description })

/-- `pactffi_message_given`: set the message's provider state. -/
def pactffi_message_given (st : Store) (h : Nat) (state : String) : Store :=
  updateMessage st h (fun m => { m with providerState := some state })

/-- `pactffi_message_with_contents`: set the message's content type and
annotated contents. -/
def pactffi_message_with_contents (st : Store) (h : Nat) (contentType : String)
    (contents : AnnVal) : Store :=
  updateMessage st h (fun m =>
    { m with contentType := contentType, contents := contents })

/-- The interactions owned by a pact handle, in registration order. -/
def interactionsOf (st : Store) (pact : Nat) : List Interaction :=
  (st.interactions.filter (fun e => e.owner == pact)).map (·.interaction)

/-- The messages owned by a pact handle, in registration order. -/
def messagesOf (st : Store) (pact : Nat) : List Message :=
  (st.messages.filter (fun e => e.owner == pact)).map (·.message)

/-- The pact owned by a handle, its interaction and message sequences
materialised from the registry. -/
def pactOf (st : Store) (pact : Nat) : Option Pact :=
  (st.pacts.lookup pact).map (fun p =>
    { p with interactions := interactionsOf st pact, messages := messagesOf st pact })

/-! ## Mock Server -/

/-- An inbound concrete HTTP request observed by the mock server. -/
structure ActualRequest where
  method : String
  path : String
  query : String
  headers : List (String × String)
  body : Option RawVal
deriving Repr

/-- A concrete HTTP response sent by the mock server. -/
structure ConcreteResponse where
  status : Nat
  headers : List (String × String)
  body : Option RawVal
deriving Repr

/-- One recorded request/response exchange with its match verdict. -/
structure Exchange where
  request : ActualRequest
  status : Nat
  mismatches : List Mismatch
deriving Repr

/-- Look up a header value by name, first occurrence. -/
def lookupHeader (k : String) : List (String × String) → Option String
  | [] => none
  | (k2, v) :: rest => if k2 == k then some v else lookupHeader k rest

/-- Mismatches of the actual headers against the expected headers: each
expected header must be present with an equal value. -/
def headerMismatches (expected actual : List (String × String)) : List Mismatch :=
  expected.flatMap (fun p =>
    match lookupHeader p.1 actual with
    | some w =>
        if p.2 == w then []
        else [⟨["header", p.1], p.2, w, "Expected header value to equal"⟩]
    | none => [⟨["header", p.1], p.2, "", "Expected header is missing"⟩])

/-- Modelled from the spec: evaluation of an inbound request against a
selected interaction's request description: the query string must be equal,
every expected header present and equal, and the body settled by the
Evaluator (non-strict). -/
def evaluateRequest (i : Interaction) (r : ActualRequest) : List Mismatch :=
  (if i.request.query == r.query then []
   else [⟨["query"], i.request.query, r.query, "Expected query string to equal"⟩]) ++
  headerMismatches i.request.headers r.headers ++
  (match i.request.body, r.body with
   | none, _ => []
   | some eb, some ab => evalAt false ["body"] eb ab
   | some eb, none =>
       [⟨["body"], stringifyRaw (reifyVal eb), "", "Expected a body but none was received"⟩])

/-- Modelled from the spec: one running server instance bound to one pact:
the listening port, the read-only interactions it replays, and the
append-only log of observed exchanges with their verdicts. -/
structure MockServer where
  port : Nat
  interactions : List Interaction
  exchanges : List Exchange
deriving Repr

/-- Modelled from the spec: selection of the stored interaction whose
request description matches the inbound request by method and path, in
registration order, first match wins. -/
def findInteraction (r : ActualRequest) : List Interaction → Option Interaction
  | [] => none
  | i :: rest =>
      if i.request.method == r.method && i.request.path == r.path then some i
      else findInteraction r rest

/-- The mismatch recorded for a request matching no registered interaction
by method and path. -/
def noMatchMismatch (r : ActualRequest) : Mismatch :=
  ⟨["request"], "", r.method ++ " " ++ r.path, "No matching interaction found for request"⟩

/-- Modelled from the spec: handling of one inbound request: select by
method and path; on a hit, respond with the scripted response whether or
not mismatches were found (the server is permissive) and record the
exchange with its mismatch list; on no hit, respond with a 500-class error
and record a no-matching-interaction mismatch. -/
def handleRequest (ms : MockServer) (r : ActualRequest) :
    ConcreteResponse × MockServer :=
  match findInteraction r ms.interactions with
  | some i =>
      let resp : ConcreteResponse :=
        ⟨i.response.status, i.response.headers, i.response.body.map reifyVal⟩
      let ex : Exchange := ⟨r, resp.status, evaluateRequest i r⟩
      (resp, { ms with exchanges := ms.exchanges ++ [ex] })
  | none =>
      let resp : ConcreteResponse :=
        ⟨500, [], some (.str "No matching interaction found")⟩
      let ex : Exchange := ⟨r, 500, [noMatchMismatch r]⟩
      (resp, { ms with exchanges := ms.exchanges ++ [ex] })

/-- Serve a sequence of inbound requests in arrival order. -/
def runRequests (ms : MockServer) (rs : List ActualRequest) : MockServer :=
  rs.foldl (fun m r => (handleRequest m r).2) ms

/-- `pactffi_mock_server_matched`: true iff every recorded exchange
matched. -/
def pactffi_mock_server_matched (ms : MockServer) : Bool :=
  ms.exchanges.all (fun ex => ex.mismatches.isEmpty)

/-- `pactffi_mock_server_mismatches`: the recorded mismatches of all
exchanges, in arrival order. -/
def pactffi_mock_server_mismatches (ms : MockServer) : List Mismatch :=
  ms.exchanges.flatMap (·.mismatches)

/-- One diagnostic line summarising an exchange. -/
def exchangeLog (ex : Exchange) : String :=
  ex.request.method ++ " " ++ ex.request.path ++ " => " ++ toString ex.status ++
    (if ex.mismatches.isEmpty then " matched" else " mismatched")

/-- `pactffi_mock_server_logs`: the ordered diagnostic trace of all
exchanges. -/
def pactffi_mock_server_logs (ms : MockServer) : List String :=
  ms.exchanges.map exchangeLog

/-- Modelled from the spec: the process-wide registry of running mock
server instances, each owning one listening port; the integer handle a
start call returns addresses this registry. -/
structure World where
  servers : List (Nat × MockServer)
deriving Repr

/-- The world before any server started. -/
def emptyWorld : World := ⟨[]⟩

/-- First entry bound to a port in a server registry. -/
def lookupPort (p : Nat) : List (Nat × MockServer) → Option MockServer
  | [] => none
  | (k, ms) :: rest => if k == p then some ms else lookupPort p rest

/-- The server addressed by a handle. -/
def lookupServer (w : World) (h : Nat) : Option MockServer :=
  lookupPort h w.servers

/-- Whether a port is already bound in the world. -/
def portBound (w : World) (p : Nat) : Bool :=
  w.servers.any (fun e => e.1 == p)

/-- An unused ephemeral port. -/
def freshPort (w : World) : Nat :=
  (w.servers.map (·.1)).foldr max 1024 + 1

/-- Errors surfaced by a mock-server start call. -/
inductive MockServerError where
  | bindError
  | invalidPact
deriving Repr, DecidableEq

/-- Modelled from the spec: starting a mock server bound to a pact's
interactions: requested port 0 picks an ephemeral port; a port already in
use fails with a bind error; on success the bound port is returned, and
that same integer is the handle under which the new instance is
registered. -/
def startMockServer (w : World) (interactions : List Interaction)
    (requestedPort : Nat) : Except MockServerError (Nat × World) :=
  let port := if requestedPort == 0 then freshPort w else requestedPort
  if portBound w port then .error .bindError
  else .ok (port, ⟨w.servers ++ [(port, ⟨port, interactions, []⟩)]⟩)

/-- `pactffi_create_mock_server`: start a mock server from a pact contract
document; the returned integer is both the bound TCP port and the mock
server handle. -/
def pactffi_create_mock_server (w : World) (pact : Pact) (requestedPort : Nat) :
    Except MockServerError (Nat × World) :=
  startMockServer w pact.interactions requestedPort

/-- `pactffi_create_mock_server_for_pact`: start a mock server for a
registered pact handle; the returned integer is both the bound TCP port
and the mock server handle. -/
def pactffi_create_mock_server_for_pact (w : World) (st : Store) (pact : Nat)
    (requestedPort : Nat) : Except MockServerError (Nat × World) :=
  match pactOf st pact with
  | some p => startMockServer w p.interactions requestedPort
  | none => .error .invalidPact

/-- `pactffi_create_mock_server_for_transport`: start a mock server for a
registered pact handle over a named transport with a free-form
configuration blob whose unrecognized keys are ignored; the returned
integer is both the bound TCP port and the mock server handle. -/
def pactffi_create_mock_server_for_transport (w : World) (st : Store) (pact : Nat)
    (requestedPort : Nat) (transport : String) (config : List (String × String)) :
    Except MockServerError (Nat × World) :=
  pactffi_create_mock_server_for_pact w st pact requestedPort

/-- Record one served request against the server addressed by a handle. -/
def serveRequest (w : World) (h : Nat) (r : ActualRequest) :
    Option ConcreteResponse × World :=
  match lookupServer w h with
  | some ms =>
      let (resp, ms2) := handleRequest ms r
      (some resp, ⟨w.servers.map (fun e => if e.1 == h then (e.1, ms2) else e)⟩)
  | none => (none, w)

/-- World-level `pactffi_mock_server_matched`: false on an unknown
handle. -/
def mockServerMatched (w : World) (h : Nat) : Bool :=
  match lookupServer w h with
  | some ms => pactffi_mock_server_matched ms
  | none => false

/-- `pactffi_cleanup_mock_server`: discard the server addressed by a
handle, releasing its port; returns whether the handle was live. -/
def pactffi_cleanup_mock_server (w : World) (h : Nat) : Bool × World :=
  (portBound w h, ⟨w.servers.filter (fun e => !(e.1 == h))⟩)

/-! ## Pact Serializer: bodies -/

/-- Wire name of a matching rule kind. -/
def ruleName : MatchingRule → String
  | .equality => "equality"
  | .type => "type"
  | .regex _ => "regex"

/-- Modelled from the spec and the driver scripts' body format: a
rule-carrying node is embedded inline as an object with the
`pact:matcher:type` discriminator, the pattern for a Regex rule, and the
example under `value`. -/
def encodeRuled (r : MatchingRule) (inner : RawVal) : RawVal :=
  match r with
  | .type => .obj [("pact:matcher:type", .str "type"), ("value", inner)]
  | .equality => .obj [("pact:matcher:type", .str "equality"), ("value", inner)]
  | .regex pat =>
      .obj [("pact:matcher:type", .str "regex"), ("regex", .str pat), ("value", inner)]

/-- Wrap an encoded example in its node's rule, if any. -/
def withRule : Option MatchingRule → RawVal → RawVal
  | none, v => v
  | some r, v => encodeRuled r v

mutual
/-- Encode an annotated value into the contract document's body format. -/
def encodeAnn : AnnVal → RawVal
  | .str r s => withRule r (.str s)
  | .num r n => withRule r (.num n)
  | .bool r b => withRule r (.bool b)
  | .obj r fields => withRule r (.obj (encodeFields fields))
  | .arr r items => withRule r (.arr (encodeItems items))

/-- Encode annotated object fields. -/
def encodeFields : List (String × AnnVal) → List (String × RawVal)
  | [] => []
  | (k, v) :: rest => (k, encodeAnn v) :: encodeFields rest

/-- Encode annotated array items. -/
def encodeItems : List AnnVal → List RawVal
  | [] => []
  | v :: rest => encodeAnn v :: encodeItems rest
end

mutual
/-- Decode a contract document body back into an annotated value; an
object carrying the `pact:matcher:type` discriminator shape reattaches the
rule to its decoded example. -/
def decodeAnn : RawVal → Option AnnVal
  | .str s => some (.str none s)
  | .num n => some (.num none n)
  | .bool b => some (.bool none b)
  | .arr items => (decodeItems items).map (AnnVal.arr none)
  | .obj [("pact:matcher:type", .str "type"), ("value", inner)] =>
      (decodeAnn inner).map (setRule .type)
  | .obj [("pact:matcher:type", .str "equality"), ("value", inner)] =>
      (decodeAnn inner).map (setRule .equality)
  | .obj [("pact:matcher:type", .str "regex"), ("regex", .str pat), ("value", inner)] =>
      (decodeAnn inner).map (setRule (.regex pat))
  | .obj fields => (decodeFields fields).map (AnnVal.obj none)

/-- Decode the fields of a plain object body. -/
def decodeFields : List (String × RawVal) → Option (List (String × AnnVal))
  | [] => some []
  | (k, v) :: rest => do
      let v2 ← decodeAnn v
      let rest2 ← decodeFields rest
      some ((k, v2) :: rest2)

/-- Decode the items of an array body. -/
def decodeItems : List RawVal → Option (List AnnVal)
  | [] => some []
  | v :: rest => do
      let v2 ← decodeAnn v
      let rest2 ← decodeItems rest
      some (v2 :: rest2)
end

mutual
/-- A body is unambiguous for the inline matcher format when none of its
object nodes uses the `pact:matcher:type` discriminator as an ordinary
key. -/
def noMatcherKey : AnnVal → Bool
  | .str _ _ => true
  | .num _ _ => true
  | .bool _ _ => true
  | .obj _ fields => noMatcherKeyFields fields
  | .arr _ items => noMatcherKeyItems items

/-- Unambiguity of object fields for the inline matcher format. -/
def noMatcherKeyFields : List (String × AnnVal) → Bool
  | [] => true
  | (k, v) :: rest =>
      !(k == "pact:matcher:type") && noMatcherKey v && noMatcherKeyFields rest

/-- Unambiguity of array items for the inline matcher format. -/
def noMatcherKeyItems : List AnnVal → Bool
  | [] => true
  | v :: rest => noMatcherKey v && noMatcherKeyItems rest
end

/-! ## Pact Serializer: documents -/

/-- The string carried by a string node, if any. -/
def asStr : Option RawVal → Option String
  | some (.str s) => some s
  | _ => none

/-- Encode a header mapping as an object of strings. -/
def encodeStrMap (hs : List (String × String)) : RawVal :=
  .obj (hs.map (fun p => (p.1, .str p.2)))

/-- Decode an object of strings back into a mapping. -/
def decodeStrFields : List (String × RawVal) → Option (List (String × String))
  | [] => some []
  | (k, .str v) :: rest => (decodeStrFields rest).map (fun t => (k, v) :: t)
  | _ => none

/-- Decode a header mapping. -/
def decodeStrMap : RawVal → Option (List (String × String))
  | .obj fields => decodeStrFields fields
  | _ => none

/-- Encode an expected request into the contract document. -/
def encodeRequest (r : Request) : RawVal :=
  .obj ([("method", .str r.method), ("path", .str r.path), ("query", .str r.query),
         ("headers", encodeStrMap r.headers)] ++
        (match r.body with
         | some b => [("body", encodeAnn b)]
         | none => []))

/-- Decode an expected request from the contract document. -/
def decodeRequest : RawVal → Option Request
  | .obj fields => do
      let m ← asStr (lookupField "method" fields)
      let p ← asStr (lookupField "path" fields)
      let q ← asStr (lookupField "query" fields)
      let hs ← match lookupField "headers" fields with
               | some hv => decodeStrMap hv
               | none => none
      let b ← match lookupField "body" fields with
              | some bv => (decodeAnn bv).map some
              | none => some none
      some ⟨m, p, q, hs, b⟩
  | _ => none

/-- Encode a scripted response into the contract document. -/
def encodeResponse (r : Response) : RawVal :=
  .obj ([("status", .num (Int.ofNat r.status)),
         ("headers", encodeStrMap r.headers)] ++
        (match r.body with
         | some b => [("body", encodeAnn b)]
         | none => []))

/-- Decode a scripted response from the contract document. -/
def decodeResponse : RawVal → Option Response
  | .obj fields => do
      let s ← match lookupField "status" fields with
              | some (.num n) => some n.toNat
              | _ => none
      let hs ← match lookupField "headers" fields with
               | some hv => decodeStrMap hv
               | none => none
      let b ← match lookupField "body" fields with
              | some bv => (decodeAnn bv).map some
              | none => some none
      some ⟨s, hs, b⟩
  | _ => none

/-- Encode one interaction into the contract document: description,
optional provider state, request and response. -/
def encodeInteraction (i : Interaction) : RawVal :=
  .obj ([("description", .str i.description)] ++
        (match i.providerState with
         | some s => [("providerState", .str s)]
         | none => []) ++
        [("request", encodeRequest i.request), ("response", encodeResponse i.response)])

/-- Decode one interaction from the contract document. -/
def decodeInteraction : RawVal → Option Interaction
  | .obj fields => do
      let d ← asStr (lookupField "description" fields)
      let ps ← match lookupField "providerState" fields with
               | some (.str s) => some (some s)
               | none => some none
               | some _ => none
      let rq ← match lookupField "request" fields with
               | some rv => decodeRequest rv
               | none => none
      let rs ← match lookupField "response" fields with
               | some rv => decodeResponse rv
               | none => none
      some ⟨d, ps, rq, rs⟩
  | _ => none

/-- Encode the ordered interaction list. -/
def encodeInteractions : List Interaction → List RawVal
  | [] => []
  | i :: rest => encodeInteraction i :: encodeInteractions rest

/-- Decode the ordered interaction list. -/
def decodeInteractions : List RawVal → Option (List Interaction)
  | [] => some []
  | v :: rest => do
      let i ← decodeInteraction v
      let is ← decodeInteractions rest
      some (i :: is)

/-- Modelled from the spec: the persisted contract document: consumer and
provider identities, the ordered interactions, and the metadata mapping. -/
def serializePact (p : Pact) : RawVal :=
  .obj [("consumer", .obj [("name", .str p.consumer)]),
        ("provider", .obj [("name", .str p.provider)]),
        ("interactions", .arr (encodeInteractions p.interactions)),
        ("metadata", encodeStrMap p.metadata)]

/-- Re-parse a contract document into a pact. -/
def parsePact : RawVal → Option Pact
  | .obj fields => do
      let c ← match lookupField "consumer" fields with
              | some (.obj cf) => asStr (lookupField "name" cf)
              | _ => none
      let pr ← match lookupField "provider" fields with
               | some (.obj pf) => asStr (lookupField "name" pf)
               | _ => none
      let ints ← match lookupField "interactions" fields with
                 | some (.arr vs) => decodeInteractions vs
                 | _ => none
      let md ← match lookupField "metadata" fields with
               | some mv => decodeStrMap mv
               | none => some []
      some ⟨c, pr, ints, [], md⟩
  | _ => none

/-! ## Pact file writing -/

/-- The serializer's target location: a mapping from paths to contract
documents. -/
abbrev FileSystem := List (String × RawVal)

/-- The document stored at a path, if any. -/
def lookupFile (fs : FileSystem) (path : String) : Option RawVal :=
  fs.lookup path

/-- Store a document at a path, replacing any existing file there. -/
def setFile (fs : FileSystem) (path : String) (doc : RawVal) : FileSystem :=
  (path, doc) :: fs.filter (fun e => !(e.1 == path))

/-- The target path of a pact's contract file under a directory. -/
def pactFilePath (dir : String) (p : Pact) : String :=
  dir ++ "/" ++ p.consumer ++ "-" ++ p.provider ++ ".json"

/-- Modelled from the spec: merging new interactions into an existing
document's interactions as a union keyed by description. -/
def mergeInteractions (old new : List Interaction) : List Interaction :=
  old ++ new.filter (fun i => !(old.any (fun j => j.description == i.description)))

/-- `pactffi_write_pact_file`: persist a pact's contract document.  When a
file already exists at the target path and overwriting is off, the new
interactions are merged into the existing document as a union keyed by
description; with overwriting on, the existing file is replaced
wholesale. -/
def pactffi_write_pact_file (fs : FileSystem) (p : Pact) (dir : String)
    (overwrite : Bool) : FileSystem :=
  let path := pactFilePath dir p
  if overwrite then setFile fs path (serializePact p)
  else
    match lookupFile fs path with
    | some doc =>
        match parsePact doc with
        | some old =>
            setFile fs path (serializePact
              { p with interactions := mergeInteractions old.interactions p.interactions })
        | none => setFile fs path (serializePact p)
    | none => setFile fs path (serializePact p)

/-! ## Message Reifier -/

/-- Modelled from the spec: a message with all matching-rule placeholders
replaced by concrete representative values. -/
structure ReifiedMessage where
  description : String
  providerState : Option String
  contentType : String
  contents : RawVal
deriving Repr

/-- `pactffi_message_reify`: resolve the message's templated contents into
concrete example values; a pure transformation with no network or server
involvement. -/
def pactffi_message_reify (m : Message) : ReifiedMessage :=
  ⟨m.description, m.providerState, m.contentType, reifyVal m.contents⟩

/-! ## Predicates and scenario constants used by the verification -/

/-- Whether an annotated object's keys are pairwise distinct. -/
def distinctKeys : List (String × AnnVal) → Bool
  | [] => true
  | (k, _) :: rest => !(rest.any (fun p => p.1 == k)) && distinctKeys rest

/-- Whether a string mapping's keys are pairwise distinct. -/
def distinctStrKeys : List (String × String) → Bool
  | [] => true
  | (k, _) :: rest => !(rest.any (fun p => p.1 == k)) && distinctStrKeys rest

mutual
/-- A literal expected value: no node carries a matching rule, and every
object node's keys are unambiguous. -/
def literalBody : AnnVal → Bool
  | .str r _ => r.isNone
  | .num r _ => r.isNone
  | .bool r _ => r.isNone
  | .obj r fields => r.isNone && distinctKeys fields && literalFields fields
  | .arr r items => r.isNone && literalItems items

/-- Literality of object fields. -/
def literalFields : List (String × AnnVal) → Bool
  | [] => true
  | (_, v) :: rest => literalBody v && literalFields rest

/-- Literality of array items. -/
def literalItems : List AnnVal → Bool
  | [] => true
  | v :: rest => literalBody v && literalItems rest
end

/-- A request description is literal when its headers are unambiguous and
its body, if any, is literal. -/
def literalRequest (i : Interaction) : Bool :=
  distinctStrKeys i.request.headers &&
    (match i.request.body with
     | some b => literalBody b
     | none => true)

/-- The concrete request exactly equal to an interaction's expected request
description: same method, path, query and headers, and the description's
body taken literally. -/
def exactRequestOf (i : Interaction) : ActualRequest :=
  ⟨i.request.method, i.request.path, i.request.query, i.request.headers,
    i.request.body.map reifyVal⟩

/-- An interaction is serialization-unambiguous when its bodies never use
the inline matcher discriminator as an ordinary key. -/
def wfInteraction (i : Interaction) : Bool :=
  (match i.request.body with
   | some b => noMatcherKey b
   | none => true) &&
  (match i.response.body with
   | some b => noMatcherKey b
   | none => true)

/-- A pact is serialization-unambiguous when all its interactions are. -/
def wellFormedPact (p : Pact) : Bool :=
  p.interactions.all wfInteraction

/-- The Mallory interaction registered by the GET scenario of
`pact_http_create_mock_server.py`. -/
def malloryInteraction : Interaction :=
  ⟨"a retrieve Mallory request", none,
   ⟨"GET", "/mallory", "name=ron&status=good", [], none⟩,
   ⟨200, [("Content-Type", "text/html")], some (.str none "That is some good Mallory.")⟩⟩

/-- The mock server of the GET scenario, bound to port 4432 with the
Mallory interaction and no traffic yet. -/
def malloryServer : MockServer := ⟨4432, [malloryInteraction], []⟩

/-- The Alice Service pact of `pact_http_create_mock_server.py`. -/
def malloryPact : Pact :=
  ⟨"Consumer", "Alice Service", [malloryInteraction], [],
   [("pact-specification:version", "1.0.0")]⟩

/-- A request that selects the Mallory interaction by method and path but
omits its query string. -/
def malloryBadQuery : ActualRequest := ⟨"GET", "/mallory", "", [], none⟩

/-- A request matching no registered interaction by method and path. -/
def unknownRequest : ActualRequest := ⟨"POST", "/unknown", "", [], none⟩

/-- The book-creation interaction of the POST scenario, used by the
pact-file merge witness. -/
def bookInteraction : Interaction :=
  ⟨"A POST request to create book", none,
   ⟨"POST", "/api/books", "", [("Content-Type", "application/json")], none⟩,
   ⟨200, [], none⟩⟩

/-- A second revision of the Alice Service pact adding the book
interaction. -/
def malloryPactV2 : Pact :=
  ⟨"Consumer", "Alice Service", [malloryInteraction, bookInteraction], [], []⟩

/-- A file system already holding the first revision's contract file. -/
def fsWithMallory : FileSystem :=
  [(pactFilePath "./pacts" malloryPact, serializePact malloryPact)]

/-- The UUID pattern of the message scenario of `pact_message_v3.py`. -/
def uuidPattern : String :=
  "^[0-9a-f]\x7b8\x7d(-[0-9a-f]\x7b4\x7d)\x7b3\x7d-[0-9a-f]\x7b12\x7d$"

/-- The message of `pact_message_v3.py`: a `uuid` field carrying a Regex
rule with an embedded literal example. -/
def uuidMessage : Message :=
  ⟨"Book (id fb5a885f-f7e8-4a50-950f-c1a64a94d500) created message",
   some "A book with id fb5a885f-f7e8-4a50-950f-c1a64a94d500 is required",
   "application/json",
   .obj none [("uuid",
     .str (some (.regex uuidPattern)) "fb5a885f-f7e8-4a50-950f-c1a64a94d500")]⟩

/-! ## Supporting lemmas -/

mutual
theorem beqRaw_iff (a b : RawVal) : beqRaw a b = true ↔ a = b := by
  cases a <;> cases b <;> simp [beqRaw]
  case obj.obj fs gs => exact beqRawFields_iff fs gs
  case arr.arr xs ys => exact beqRawItems_iff xs ys

theorem beqRawFields_iff (fs gs : List (String × RawVal)) :
    beqRawFields fs gs = true ↔ fs = gs := by
  cases fs with
  | nil => cases gs <;> simp [beqRawFields]
  | cons p rest =>
    cases gs with
    | nil => simp [beqRawFields]
    | cons q rest2 =>
      obtain ⟨k, v⟩ := p
      obtain ⟨k2, v2⟩ := q
      simp [beqRawFields, beqRaw_iff v v2, beqRawFields_iff rest rest2]

theorem beqRawItems_iff (xs ys : List RawVal) : beqRawItems xs ys = true ↔ xs = ys := by
  cases xs with
  | nil => cases ys <;> simp [beqRawItems]
  | cons v rest =>
    cases ys with
    | nil => simp [beqRawItems]
    | cons v2 rest2 => simp [beqRawItems, beqRaw_iff v v2, beqRawItems_iff rest rest2]
end

mutual
theorem reify_annOfRaw (v : RawVal) : reifyVal (annOfRaw v) = v := by
  cases v with
  | str s => rfl
  | num n => rfl
  | bool b => rfl
  | obj fs => simp [annOfRaw, reifyVal, reifyFields_annOfRawFields fs]
  | arr xs => simp [annOfRaw, reifyVal, reifyItems_annOfRawItems xs]

theorem reifyFields_annOfRawFields (fs : List (String × RawVal)) :
    reifyFields (annOfRawFields fs) = fs := by
  cases fs with
  | nil => rfl
  | cons p rest =>
    obtain ⟨k, v⟩ := p
    simp [annOfRawFields, reifyFields, reify_annOfRaw v, reifyFields_annOfRawFields rest]

theorem reifyItems_annOfRawItems (xs : List RawVal) :
    reifyItems (annOfRawItems xs) = xs := by
  cases xs with
  | nil => rfl
  | cons v rest =>
    simp [annOfRawItems, reifyItems, reify_annOfRaw v, reifyItems_annOfRawItems rest]
end

theorem lookupField_reify_self (fields : List (String × AnnVal)) (k : String) (v : AnnVal)
    (hd : distinctKeys fields = true) (hm : (k, v) ∈ fields) :
    lookupField k (reifyFields fields) = some (reifyVal v) := by
  induction fields with
  | nil => cases hm
  | cons p rest ih =>
    obtain ⟨k0, v0⟩ := p
    simp only [distinctKeys, Bool.and_eq_true, Bool.not_eq_true'] at hd
    rcases List.mem_cons.mp hm with h | h
    · obtain ⟨h1, h2⟩ := Prod.mk.injEq .. ▸ h
      subst h1; subst h2
      simp [reifyFields, lookupField]
    · have hk : ¬ k0 = k := by
        intro he
        subst he
        have : rest.any (fun p => p.1 == k0) = true :=
          List.any_eq_true.mpr ⟨(k0, v), h, by simp⟩
        simp [this] at hd
      simp only [reifyFields, lookupField, beq_iff_eq, if_neg hk]
      exact ih hd.2 h

theorem lookupHeader_self (hs : List (String × String)) (k v : String)
    (hd : distinctStrKeys hs = true) (hm : (k, v) ∈ hs) :
    lookupHeader k hs = some v := by
  induction hs with
  | nil => cases hm
  | cons p rest ih =>
    obtain ⟨k0, v0⟩ := p
    simp only [distinctStrKeys, Bool.and_eq_true, Bool.not_eq_true'] at hd
    rcases List.mem_cons.mp hm with h | h
    · obtain ⟨h1, h2⟩ := Prod.mk.injEq .. ▸ h
      subst h1; subst h2
      simp [lookupHeader]
    · have hk : ¬ k0 = k := by
        intro he
        subst he
        have : rest.any (fun p => p.1 == k0) = true :=
          List.any_eq_true.mpr ⟨(k0, v), h, by simp⟩
        simp [this] at hd
      simp only [lookupHeader, beq_iff_eq, if_neg hk]
      exact ih hd.2 h

theorem headerMismatches_sub (hs sub : List (String × String))
    (hlook : ∀ k v, (k, v) ∈ sub → lookupHeader k hs = some v) :
    headerMismatches sub hs = [] := by
  induction sub with
  | nil => rfl
  | cons p rest ih =>
    obtain ⟨k, v⟩ := p
    have hk := hlook k v (by simp)
    simp only [headerMismatches, List.flatMap_cons] at *
    rw [hk]
    simp only [beq_self_eq_true, if_pos rfl, List.nil_append]
    exact ih (fun k2 v2 hm => hlook k2 v2 (by simp [hm]))

theorem headerMismatches_self (hs : List (String × String))
    (hd : distinctStrKeys hs = true) : headerMismatches hs hs = [] :=
  headerMismatches_sub hs hs (fun k v hm => lookupHeader_self hs k v hd hm)

mutual
theorem evalAt_reify (path : List String) (e : AnnVal) (h : literalBody e = true) :
    evalAt false path e (reifyVal e) = [] := by
  cases e with
  | str r s =>
    cases r with
    | none => simp [evalAt, ruleOf, reifyVal]
    | some r0 => simp [literalBody] at h
  | num r n =>
    cases r with
    | none => simp [evalAt, ruleOf, reifyVal]
    | some r0 => simp [literalBody] at h
  | bool r b =>
    cases r with
    | none => simp [evalAt, ruleOf, reifyVal]
    | some r0 => simp [literalBody] at h
  | obj r fields =>
    cases r with
    | some r0 => simp [literalBody] at h
    | none =>
      simp only [literalBody, Option.isNone_none, Bool.true_and, Bool.and_eq_true] at h
      simp only [evalAt, ruleOf, reifyVal, Bool.false_eq_true, if_neg, List.nil_append,
        reduceIte]
      exact evalFields_reify path fields (reifyFields fields) h.2
        (fun k v hm => lookupField_reify_self fields k v h.1 hm)
  | arr r items =>
    cases r with
    | some r0 => simp [literalBody] at h
    | none =>
      simp only [literalBody, Option.isNone_none, Bool.true_and] at h
      simp only [evalAt, ruleOf, reifyVal]
      exact evalItems_reify path 0 items h

theorem evalFields_reify (path : List String) (fs : List (String × AnnVal))
    (afs : List (String × RawVal)) (hl : literalFields fs = true)
    (hlook : ∀ k v, (k, v) ∈ fs → lookupField k afs = some (reifyVal v)) :
    evalFields false path fs afs = [] := by
  cases fs with
  | nil => rfl
  | cons p rest =>
    obtain ⟨k, v⟩ := p
    simp only [literalFields, Bool.and_eq_true] at hl
    have hk := hlook k v (by simp)
    simp only [evalFields, hk, List.append_eq_nil]
    exact ⟨evalAt_reify (path ++ [k]) v hl.1,
      evalFields_reify path rest afs hl.2 (fun k2 v2 hm => hlook k2 v2 (by simp [hm]))⟩

theorem evalItems_reify (path : List String) (i : Nat) (items : List AnnVal)
    (hl : literalItems items = true) :
    evalItems false path i items (reifyItems items) = [] := by
  cases items with
  | nil => rfl
  | cons v rest =>
    simp only [literalItems, Bool.and_eq_true] at hl
    simp only [reifyItems, evalItems, List.append_eq_nil]
    exact ⟨evalAt_reify (path ++ [toString i]) v hl.1,
      evalItems_reify path (i + 1) rest hl.2⟩
end

theorem exactRequestOf_method (i : Interaction) :
    (exactRequestOf i).method = i.request.method := rfl

theorem exactRequestOf_path (i : Interaction) :
    (exactRequestOf i).path = i.request.path := rfl

theorem evaluateRequest_exact (i : Interaction) (h : literalRequest i = true) :
    evaluateRequest i (exactRequestOf i) = [] := by
  unfold literalRequest at h
  simp only [Bool.and_eq_true] at h
  show (if i.request.query == i.request.query then [] else _) ++
      headerMismatches i.request.headers i.request.headers ++ _ = []
  rw [headerMismatches_self _ h.1]
  simp only [beq_self_eq_true, if_pos rfl, List.nil_append, List.append_nil]
  show (match i.request.body, i.request.body.map reifyVal with
        | none, _ => []
        | some eb, some ab => evalAt false ["body"] eb ab
        | some eb, none => _) = []
  cases hb : i.request.body with
  | none => rfl
  | some b =>
    rw [hb] at h
    show evalAt false ["body"] b (reifyVal b) = []
    exact evalAt_reify ["body"] b h.2

theorem handleRequest_exact (port : Nat) (i : Interaction) (h : literalRequest i = true) :
    handleRequest ⟨port, [i], []⟩ (exactRequestOf i) =
      (⟨i.response.status, i.response.headers, i.response.body.map reifyVal⟩,
       ⟨port, [i], [⟨exactRequestOf i, i.response.status, []⟩]⟩) := by
  unfold handleRequest findInteraction
  simp only [exactRequestOf_method, exactRequestOf_path, beq_self_eq_true, Bool.and_self,
    if_true, evaluateRequest_exact i h, List.nil_append]

/-- C1: for every mock server, `matched` is true iff every recorded
exchange matched; and an interaction registered and then exercised with the
request exactly equal to its (literal) expected request description yields
`matched() = true`, empty `mismatches()`, and the scripted status and
body. -/
theorem matched_iff_all_and_exact_exercise :
    (∀ ms : MockServer,
      pactffi_mock_server_matched ms = true ↔ ∀ ex ∈ ms.exchanges, ex.mismatches = []) ∧
    (∀ port i, literalRequest i = true →
      (handleRequest ⟨port, [i], []⟩ (exactRequestOf i)).1.status = i.response.status ∧
      (handleRequest ⟨port, [i], []⟩ (exactRequestOf i)).1.body =
        i.response.body.map reifyVal ∧
      pactffi_mock_server_matched (handleRequest ⟨port, [i], []⟩ (exactRequestOf i)).2 =
        true ∧
      pactffi_mock_server_mismatches (handleRequest ⟨port, [i], []⟩ (exactRequestOf i)).2 =
        []) := by
  constructor
  · intro ms
    simp [pactffi_mock_server_matched, List.all_eq_true, List.isEmpty_iff]
  · intro port i h
    rw [handleRequest_exact port i h]
    refine ⟨rfl, rfl, ?_, ?_⟩
    · simp [pactffi_mock_server_matched]
    · simp [pactffi_mock_server_mismatches]

/-- Witness for C1: the Mallory GET scenario: issuing exactly the
registered GET yields `matched() = true`, no mismatches, and the scripted
body. -/
theorem matched_iff_all_and_exact_exercise_witness :
    pactffi_mock_server_matched
        (handleRequest malloryServer (exactRequestOf malloryInteraction)).2 = true ∧
    pactffi_mock_server_mismatches
        (handleRequest malloryServer (exactRequestOf malloryInteraction)).2 = [] ∧
    (handleRequest malloryServer (exactRequestOf malloryInteraction)).1.status = 200 ∧
    (handleRequest malloryServer (exactRequestOf malloryInteraction)).1.body =
      some (.str "That is some good Mallory.") := by
  have h := matched_iff_all_and_exact_exercise.2 4432 malloryInteraction (by decide)
  exact ⟨h.2.2.1, h.2.2.2, h.1, h.2.1.trans rfl⟩

/-- C2: a request that selects a stored interaction by method and path is
answered with that interaction's scripted status, headers and reified body
even when mismatches were found, and the exchange is recorded with its
mismatch list; a request selecting no interaction gets the 500 error and a
no-matching-interaction mismatch. -/
theorem permissive_on_mismatch_500_on_no_match :
    (∀ ms r i, findInteraction r ms.interactions = some i →
      (handleRequest ms r).1 =
        ⟨i.response.status, i.response.headers, i.response.body.map reifyVal⟩ ∧
      (handleRequest ms r).2.exchanges =
        ms.exchanges ++ [⟨r, i.response.status, evaluateRequest i r⟩]) ∧
    (∀ ms r, findInteraction r ms.interactions = none →
      (handleRequest ms r).1.status = 500 ∧
      (handleRequest ms r).2.exchanges = ms.exchanges ++ [⟨r, 500, [noMatchMismatch r]⟩]) := by
  constructor
  · intro ms r i h
    unfold handleRequest
    rw [h]
    exact ⟨rfl, rfl⟩
  · intro ms r h
    unfold handleRequest
    rw [h]
    exact ⟨rfl, rfl⟩

/-- Witness for C2: the Mallory server answers a query-mismatching request
with the scripted 200 response while recording the mismatch, and answers an
unknown request with the 500 error and the no-matching-interaction
mismatch. -/
theorem permissive_on_mismatch_500_on_no_match_witness :
    (handleRequest malloryServer malloryBadQuery).1 =
      ⟨200, [("Content-Type", "text/html")], some (.str "That is some good Mallory.")⟩ ∧
    (handleRequest malloryServer malloryBadQuery).2.exchanges =
      [⟨malloryBadQuery, 200, evaluateRequest malloryInteraction malloryBadQuery⟩] ∧
    evaluateRequest malloryInteraction malloryBadQuery ≠ [] ∧
    (handleRequest malloryServer unknownRequest).1.status = 500 ∧
    (handleRequest malloryServer unknownRequest).2.exchanges =
      [⟨unknownRequest, 500, [noMatchMismatch unknownRequest]⟩] := by
  have h1 := permissive_on_mismatch_500_on_no_match.1 malloryServer malloryBadQuery
    malloryInteraction rfl
  have h2 := permissive_on_mismatch_500_on_no_match.2 malloryServer unknownRequest rfl
  exact ⟨h1.1, h1.2, by decide, h2.1, h2.2⟩

theorem evalAt_rule (strict : Bool) (path : List String) (e : AnnVal) (a : RawVal)
    (r : MatchingRule) (hr : ruleOf e = some r) :
    evalAt strict path e a = ruleCheck path r e a := by
  cases e <;> (simp only [ruleOf] at hr; subst hr; rfl)

/-- C3: at a node carrying a Regex rule, the Evaluator accepts exactly the
actuals whose stringified form fully matches the pattern, regardless of the
node's embedded example; a failure is the single mismatch citing the
pattern and the actual string. -/
theorem regex_rule_evaluation (strict : Bool) (path : List String) (e : AnnVal)
    (a : RawVal) (pat : String) (hr : ruleOf e = some (.regex pat)) :
    (regexFullMatch pat (stringifyRaw a) = true → evalAt strict path e a = []) ∧
    (regexFullMatch pat (stringifyRaw a) = false →
      evalAt strict path e a =
        [⟨path, pat, stringifyRaw a, "Expected to match the regular expression"⟩]) := by
  rw [evalAt_rule strict path e a _ hr]
  constructor
  · intro hm
    show (if regexFullMatch pat (stringifyRaw a) then _ else _) = ([] : List Mismatch)
    rw [hm]
    rfl
  · intro hm
    show (if regexFullMatch pat (stringifyRaw a) then _ else _) = _
    rw [hm]
    rfl

/-- Witness for C3: the hexadecimal pattern accepts an actual that matches
but differs from the embedded example, and rejects a non-matching actual
with the mismatch citing pattern and actual. -/
theorem regex_rule_evaluation_witness :
    evalAt false [] (.str (some (.regex "^[0-9a-f]+$")) "ff") (.str "a1") = [] ∧
    evalAt false [] (.str (some (.regex "^[0-9a-f]+$")) "ff") (.str "zz") =
      [⟨[], "^[0-9a-f]+$", "zz", "Expected to match the regular expression"⟩] := by
  constructor
  · exact (regex_rule_evaluation false [] (.str (some (.regex "^[0-9a-f]+$")) "ff")
      (.str "a1") "^[0-9a-f]+$" rfl).1 (by decide)
  · exact (regex_rule_evaluation false [] (.str (some (.regex "^[0-9a-f]+$")) "ff")
      (.str "zz") "^[0-9a-f]+$" rfl).2 (by decide)

/-- C4: at a node carrying a Type rule, any actual of the same runtime type
as the declared example matches even when the values differ, and an actual
of a different runtime type produces exactly one mismatch at that path. -/
theorem type_rule_evaluation (strict : Bool) (path : List String) (e : AnnVal)
    (a : RawVal) (hr : ruleOf e = some .type) :
    (typeOfAnn e = typeOfRaw a → evalAt strict path e a = []) ∧
    (typeOfAnn e ≠ typeOfRaw a →
      evalAt strict path e a =
        [⟨path, typeName (typeOfAnn e), typeName (typeOfRaw a),
          "Expected a value of the same type"⟩]) := by
  rw [evalAt_rule strict path e a _ hr]
  show (_ → (if typeOfAnn e == typeOfRaw a then _ else _) = _) ∧ _
  constructor
  · intro hm
    simp [hm]
  · intro hm
    simp only [ruleCheck, beq_iff_eq, if_neg hm]

/-- Witness for C4: a string example accepts a different string and rejects
a number with exactly one mismatch at the node's path. -/
theorem type_rule_evaluation_witness :
    evalAt false [] (.str (some .type) "0099740915") (.str "another isbn") = [] ∧
    evalAt false [] (.str (some .type) "0099740915") (.num 7) =
      [⟨[], "string", "number", "Expected a value of the same type"⟩] := by
  constructor
  · exact (type_rule_evaluation false [] (.str (some .type) "0099740915")
      (.str "another isbn") rfl).1 rfl
  · exact (type_rule_evaluation false [] (.str (some .type) "0099740915")
      (.num 7) rfl).2 (by decide)

/-- C5: reification is pure (the same message state always reifies to the
same output), idempotent (reifying the embedding of an already reified
contents changes nothing), resolves a Regex-rule node to its embedded
literal example, and on the message scenario of `pact_message_v3.py`
returns the literal UUID unchanged in the contents' `uuid` field. -/
theorem reify_pure_idempotent_literal :
    (∀ m : Message, pactffi_message_reify m = pactffi_message_reify m) ∧
    (∀ m : Message,
      pactffi_message_reify ⟨m.description, m.providerState, m.contentType,
        annOfRaw (pactffi_message_reify m).contents⟩ = pactffi_message_reify m) ∧
    (∀ pat ex, reifyVal (.str (some (.regex pat)) ex) = .str ex) ∧
    (pactffi_message_reify uuidMessage).contents =
      .obj [("uuid", .str "fb5a885f-f7e8-4a50-950f-c1a64a94d500")] := by
  refine ⟨fun m => rfl, fun m => ?_, fun pat ex => rfl, rfl⟩
  show ReifiedMessage.mk m.description m.providerState m.contentType
      (reifyVal (annOfRaw (reifyVal m.contents))) = _
  rw [reify_annOfRaw]
  rfl

theorem map_if_handle_eq_self (l : List InteractionEntry) (h : Nat)
    (f : Interaction → Interaction) (hv : l.any (fun e => e.handle == h) = false) :
    l.map (fun e => if e.handle == h then { e with interaction := f e.interaction } else e)
      = l := by
  induction l with
  | nil => rfl
  | cons e rest ih =>
    simp only [List.any_cons, Bool.or_eq_false_iff] at hv
    rw [List.map_cons, ih hv.2,
      if_neg (show ¬ (e.handle == h) = true by simp [hv.1])]

theorem map_if_mhandle_eq_self (l : List MessageEntry) (h : Nat)
    (f : Message → Message) (hv : l.any (fun e => e.handle == h) = false) :
    l.map (fun e => if e.handle == h then { e with message := f e.message } else e)
      = l := by
  induction l with
  | nil => rfl
  | cons e rest ih =>
    simp only [List.any_cons, Bool.or_eq_false_iff] at hv
    rw [List.map_cons, ih hv.2,
      if_neg (show ¬ (e.handle == h) = true by simp [hv.1])]

theorem updateInteraction_invalid (st : Store) (h : Nat) (f : Interaction → Interaction)
    (hv : validInteraction st h = false) : updateInteraction st h f = st := by
  unfold validInteraction at hv
  simp only [updateInteraction]
  rw [map_if_handle_eq_self st.interactions h f hv]

theorem updateMessage_invalid (st : Store) (h : Nat) (f : Message → Message)
    (hv : validMessage st h = false) : updateMessage st h f = st := by
  unfold validMessage at hv
  simp only [updateMessage]
  rw [map_if_mhandle_eq_self st.messages h f hv]

theorem updateInteraction_twice (st : Store) (h : Nat) (f g : Interaction → Interaction) :
    updateInteraction (updateInteraction st h f) h g =
      updateInteraction st h (fun i => g (f i)) := by
  simp only [updateInteraction, List.map_map]
  congr 1
  apply List.map_congr_left
  intro e _
  by_cases he : e.handle == h
  · simp [Function.comp, he]
  · simp [Function.comp, he]

theorem updateMessage_twice (st : Store) (h : Nat) (f g : Message → Message) :
    updateMessage (updateMessage st h f) h g =
      updateMessage st h (fun m => g (f m)) := by
  simp only [updateMessage, List.map_map]
  congr 1
  apply List.map_congr_left
  intro e _
  by_cases he : e.handle == h
  · simp [Function.comp, he]
  · simp [Function.comp, he]

theorem setHeader_lww (n v1 v2 : String) (hs : List (String × String)) :
    setHeader n v2 (setHeader n v1 hs) = setHeader n v2 hs := by
  induction hs with
  | nil => simp [setHeader]
  | cons p rest ih =>
    obtain ⟨k, v⟩ := p
    by_cases hk : k == n
    · simp [setHeader, hk]
    · simp [setHeader, hk, ih]

/-- C8: every modelled setter is a silent no-op on an invalid handle, and
re-invoking a setter on the same field of the same handle has
last-write-wins semantics (idempotence is the equal-arguments case). -/
theorem setters_noop_invalid_and_lww :
    (∀ st h, validInteraction st h = false →
      (∀ m p, pactffi_with_request st h m p = st) ∧
      (∀ part n idx v, pactffi_with_header_v2 st h part n idx v = st) ∧
      (∀ part ct b, pactffi_with_body st h part ct b = st) ∧
      (∀ s, pactffi_response_status st h s = st) ∧
      (∀ s, pactffi_given st h s = st) ∧
      (∀ d, pactffi_upon_receiving st h d = st)) ∧
    (∀ st h, validMessage st h = false →
      (∀ ct b, pactffi_message_with_contents st h ct b = st) ∧
      (∀ s, pactffi_message_given st h s = st) ∧
      (∀ d, pactffi_message_expects_to_receive st h d = st)) ∧
    (∀ st h m1 p1 m2 p2,
      pactffi_with_request (pactffi_with_request st h m1 p1) h m2 p2 =
        pactffi_with_request st h m2 p2) ∧
    (∀ st h part n i1 v1 i2 v2,
      pactffi_with_header_v2 (pactffi_with_header_v2 st h part n i1 v1) h part n i2 v2 =
        pactffi_with_header_v2 st h part n i2 v2) ∧
    (∀ st h part ct1 b1 ct2 b2,
      pactffi_with_body (pactffi_with_body st h part ct1 b1) h part ct2 b2 =
        pactffi_with_body st h part ct2 b2) ∧
    (∀ st h s1 s2,
      pactffi_response_status (pactffi_response_status st h s1) h s2 =
        pactffi_response_status st h s2) ∧
    (∀ st h s1 s2, pactffi_given (pactffi_given st h s1) h s2 = pactffi_given st h s2) ∧
    (∀ st h d1 d2,
      pactffi_upon_receiving (pactffi_upon_receiving st h d1) h d2 =
        pactffi_upon_receiving st h d2) ∧
    (∀ st h ct1 b1 ct2 b2,
      pactffi_message_with_contents (pactffi_message_with_contents st h ct1 b1) h ct2 b2 =
        pactffi_message_with_contents st h ct2 b2) ∧
    (∀ st h s1 s2,
      pactffi_message_given (pactffi_message_given st h s1) h s2 =
        pactffi_message_given st h s2) ∧
    (∀ st h d1 d2,
      pactffi_message_expects_to_receive (pactffi_message_expects_to_receive st h d1) h d2 =
        pactffi_message_expects_to_receive st h d2) := by
  refine ⟨?_, ?_, ?_, ?_, ?_, ?_, ?_, ?_, ?_, ?_, ?_⟩
  · intro st h hv
    exact ⟨fun m p => updateInteraction_invalid st h _ hv,
      fun part n idx v => updateInteraction_invalid st h _ hv,
      fun part ct b => updateInteraction_invalid st h _ hv,
      fun s => updateInteraction_invalid st h _ hv,
      fun s => updateInteraction_invalid st h _ hv,
      fun d => updateInteraction_invalid st h _ hv⟩
  · intro st h hv
    exact ⟨fun ct b => updateMessage_invalid st h _ hv,
      fun s => updateMessage_invalid st h _ hv,
      fun d => updateMessage_invalid st h _ hv⟩
  · intro st h m1 p1 m2 p2
    unfold pactffi_with_request
    rw [updateInteraction_twice]
  · intro st h part n i1 v1 i2 v2
    unfold pactffi_with_header_v2
    rw [updateInteraction_twice]
    congr 1
    funext i
    by_cases hp : part == 0
    · simp [hp, setHeader_lww]
    · simp [hp, setHeader_lww]
  · intro st h part ct1 b1 ct2 b2
    unfold pactffi_with_body
    rw [updateInteraction_twice]
    congr 1
    funext i
    by_cases hp : part == 0
    · simp [hp]
    · simp [hp]
  · intro st h s1 s2
    unfold pactffi_response_status
    rw [updateInteraction_twice]
  · intro st h s1 s2
    unfold pactffi_given
    rw [updateInteraction_twice]
  · intro st h d1 d2
    unfold pactffi_upon_receiving
    rw [updateInteraction_twice]
  · intro st h ct1 b1 ct2 b2
    unfold pactffi_message_with_contents
    rw [updateMessage_twice]
  · intro st h s1 s2
    unfold pactffi_message_given
    rw [updateMessage_twice]
  · intro st h d1 d2
    unfold pactffi_message_expects_to_receive
    rw [updateMessage_twice]

/-- Witness for C8: on the empty store, handle 5 is invalid and every
setter leaves the store unchanged; a concrete double write keeps only the
last value. -/
theorem setters_noop_invalid_and_lww_witness :
    pactffi_with_request emptyStore 5 "GET" "/x" = emptyStore ∧
    pactffi_response_status emptyStore 5 404 = emptyStore ∧
    pactffi_message_given emptyStore 5 "state" = emptyStore ∧
    pactffi_with_request (pactffi_with_request emptyStore 1 "GET" "/a") 1 "POST" "/b" =
      pactffi_with_request emptyStore 1 "POST" "/b" := by
  have h := setters_noop_invalid_and_lww
  exact ⟨(h.1 emptyStore 5 (by decide)).1 "GET" "/x",
    (h.1 emptyStore 5 (by decide)).2.2.2.1 404,
    (h.2.1 emptyStore 5 (by decide)).2.1 "state",
    h.2.2.1 emptyStore 1 "GET" "/a" "POST" "/b"⟩

theorem mem_descriptions_merge (old new : List Interaction) (d : String) :
    d ∈ (mergeInteractions old new).map Interaction.description ↔
      d ∈ old.map Interaction.description ∨ d ∈ new.map Interaction.description := by
  unfold mergeInteractions
  simp only [List.map_append, List.mem_append]
  constructor
  · rintro (h | h)
    · exact .inl h
    · right
      obtain ⟨i, hi, hd⟩ := List.mem_map.mp h
      exact List.mem_map.mpr ⟨i, (List.mem_filter.mp hi).1, hd⟩
  · rintro (h | h)
    · exact .inl h
    · by_cases hold : d ∈ old.map Interaction.description
      · exact .inl hold
      · right
        obtain ⟨i, hi, hd⟩ := List.mem_map.mp h
        subst hd
        refine List.mem_map.mpr ⟨i, List.mem_filter.mpr ⟨hi, ?_⟩, rfl⟩
        simp only [Bool.not_eq_eq_eq_not, Bool.not_true, List.any_eq_false, beq_iff_eq]
        intro j hj he
        exact hold (List.mem_map.mpr ⟨j, hj, he⟩)

/-- C7: writing a pact file over an existing parseable file with
`overwriteExisting = false` merges the new interactions into the existing
document as a union keyed by description; with `overwriteExisting = true`
the file is replaced wholesale. -/
theorem write_pact_file_merge_or_replace :
    (∀ fs p dir doc old,
      lookupFile fs (pactFilePath dir p) = some doc → parsePact doc = some old →
      pactffi_write_pact_file fs p dir false =
        setFile fs (pactFilePath dir p)
          (serializePact ⟨p.consumer, p.provider,
            mergeInteractions old.interactions p.interactions, p.messages, p.metadata⟩) ∧
      (∀ d, d ∈ (mergeInteractions old.interactions p.interactions).map
            Interaction.description ↔
          d ∈ old.interactions.map Interaction.description ∨
          d ∈ p.interactions.map Interaction.description)) ∧
    (∀ fs p dir, pactffi_write_pact_file fs p dir true =
      setFile fs (pactFilePath dir p) (serializePact p)) := by
  constructor
  · intro fs p dir doc old hl hp
    refine ⟨?_, fun d => mem_descriptions_merge old.interactions p.interactions d⟩
    simp [pactffi_write_pact_file, hl, hp]
  · intro fs p dir
    rfl

/-- Witness for C7: merging the second revision of the Alice Service pact
into a file already holding the first keeps the Mallory interaction once
and adds the book interaction; both descriptions are in the union. -/
theorem write_pact_file_merge_or_replace_witness :
    pactffi_write_pact_file fsWithMallory malloryPactV2 "./pacts" false =
      setFile fsWithMallory (pactFilePath "./pacts" malloryPactV2)
        (serializePact
          ⟨"Consumer", "Alice Service", [malloryInteraction, bookInteraction], [], []⟩) ∧
    ("A POST request to create book" ∈
        (mergeInteractions malloryPact.interactions malloryPactV2.interactions).map
          Interaction.description ↔
      "A POST request to create book" ∈
          malloryPact.interactions.map Interaction.description ∨
        "A POST request to create book" ∈
          malloryPactV2.interactions.map Interaction.description) ∧
    pactffi_write_pact_file fsWithMallory malloryPactV2 "./pacts" true =
      setFile fsWithMallory (pactFilePath "./pacts" malloryPactV2)
        (serializePact malloryPactV2) := by
  have h := write_pact_file_merge_or_replace.1 fsWithMallory malloryPactV2 "./pacts"
    (serializePact malloryPact) malloryPact rfl rfl
  refine ⟨h.1.trans ?_, h.2 "A POST request to create book",
    write_pact_file_merge_or_replace.2 fsWithMallory malloryPactV2 "./pacts"⟩
  rfl

theorem lookupPort_append_self (l : List (Nat × MockServer)) (p : Nat) (ms : MockServer)
    (h : l.any (fun e => e.1 == p) = false) :
    lookupPort p (l ++ [(p, ms)]) = some ms := by
  induction l with
  | nil => simp [lookupPort]
  | cons e rest ih =>
    obtain ⟨k, m⟩ := e
    simp only [List.any_cons, Bool.or_eq_false_iff] at h
    rw [List.cons_append, lookupPort, if_neg (by simp [h.1])]
    exact ih h.2

theorem lookupPort_some_bound (l : List (Nat × MockServer)) (p : Nat) (ms : MockServer)
    (h : lookupPort p l = some ms) : l.any (fun e => e.1 == p) = true := by
  induction l with
  | nil => cases h
  | cons e rest ih =>
    obtain ⟨k, m⟩ := e
    rw [lookupPort] at h
    by_cases hk : k == p
    · simp [hk]
    · rw [if_neg (by simp_all)] at h
      simp [ih h]

theorem startMockServer_ok (w : World) (ints : List Interaction) (rp h : Nat)
    (w2 : World) (hs : startMockServer w ints rp = .ok (h, w2)) :
    lookupServer w2 h = some ⟨h, ints, []⟩ ∧ (rp ≠ 0 → h = rp) ∧
    portBound w h = false := by
  unfold startMockServer at hs
  by_cases hb : portBound w (if rp == 0 then freshPort w else rp) = true
  · rw [if_pos hb] at hs
    cases hs
  · rw [if_neg hb] at hs
    injection hs with h1
    injection h1 with he hw
    subst he
    subst hw
    have hbf : portBound w (if rp == 0 then freshPort w else rp) = false := by
      cases hq : portBound w (if rp == 0 then freshPort w else rp)
      · rfl
      · exact absurd hq hb
    refine ⟨?_, ?_, hbf⟩
    · exact lookupPort_append_self w.servers _ ⟨_, ints, []⟩ hbf
    · intro hrp
      rw [if_neg (show ¬ (rp == 0) = true by simpa using hrp)]

/-- C10: the integer a successful mock-server start call returns is at once
the bound TCP port and the handle under which the instance is registered:
looking the returned integer up in the registry finds the new server whose
port field is that same integer, the matched query addresses it, cleanup
finds it live, and a nonzero requested port is returned as-is. -/
theorem handle_is_bound_port :
    (∀ w p rp h w2, pactffi_create_mock_server w p rp = .ok (h, w2) →
      lookupServer w2 h = some ⟨h, p.interactions, []⟩ ∧ (rp ≠ 0 → h = rp) ∧
      mockServerMatched w2 h = true ∧ (pactffi_cleanup_mock_server w2 h).1 = true) ∧
    (∀ w st pa rp h w2, pactffi_create_mock_server_for_pact w st pa rp = .ok (h, w2) →
      ∃ pct, pactOf st pa = some pct ∧
        lookupServer w2 h = some ⟨h, pct.interactions, []⟩ ∧ (rp ≠ 0 → h = rp)) ∧
    (∀ w st pa rp tr cfg h w2,
      pactffi_create_mock_server_for_transport w st pa rp tr cfg = .ok (h, w2) →
      ∃ pct, pactOf st pa = some pct ∧
        lookupServer w2 h = some ⟨h, pct.interactions, []⟩ ∧ (rp ≠ 0 → h = rp)) := by
  have forPact : ∀ w st pa rp h w2,
      pactffi_create_mock_server_for_pact w st pa rp = .ok (h, w2) →
      ∃ pct, pactOf st pa = some pct ∧
        lookupServer w2 h = some ⟨h, pct.interactions, []⟩ ∧ (rp ≠ 0 → h = rp) := by
    intro w st pa rp h w2 hc
    unfold pactffi_create_mock_server_for_pact at hc
    cases hp : pactOf st pa with
    | none => rw [hp] at hc; cases hc
    | some pct =>
      rw [hp] at hc
      have hok := startMockServer_ok w pct.interactions rp h w2 hc
      exact ⟨pct, rfl, hok.1, hok.2.1⟩
  refine ⟨?_, forPact, ?_⟩
  · intro w p rp h w2 hc
    have hok := startMockServer_ok w p.interactions rp h w2 hc
    refine ⟨hok.1, hok.2.1, ?_, ?_⟩
    · unfold mockServerMatched
      rw [hok.1]
      rfl
    · unfold pactffi_cleanup_mock_server
      exact lookupPort_some_bound w2.servers h _ hok.1
  · intro w st pa rp tr cfg h w2 hc
    exact forPact w st pa rp h w2 hc

/-- Witness for C10: starting the Alice Service mock server on port 4432
over the empty world returns 4432, and that same integer addresses the
registered instance, whose port it is. -/
theorem handle_is_bound_port_witness :
    lookupServer
        ⟨[(4432, ⟨4432, malloryPact.interactions, []⟩)]⟩ 4432 =
      some ⟨4432, malloryPact.interactions, []⟩ ∧
    mockServerMatched ⟨[(4432, ⟨4432, malloryPact.interactions, []⟩)]⟩ 4432 = true := by
  have h := handle_is_bound_port.1 emptyWorld malloryPact 4432 4432
    ⟨[(4432, ⟨4432, malloryPact.interactions, []⟩)]⟩ rfl
  exact ⟨h.1, h.2.2.1⟩

theorem decodeAnn_obj_cons (k : String) (v : RawVal) (rest : List (String × RawVal))
    (h : ¬ k = "pact:matcher:type") :
    decodeAnn (.obj ((k, v) :: rest)) =
      (decodeFields ((k, v) :: rest)).map (AnnVal.obj none) := by
  rw [decodeAnn.eq_def]
  split
  · rename_i heq; injection heq
  · rename_i heq; injection heq
  · rename_i heq; injection heq
  · rename_i heq; injection heq
  · rename_i heq
    injection heq with h1
    injection h1 with h2 h3
    injection h2 with h4 h5
    exact absurd h4 h
  · rename_i heq
    injection heq with h1
    injection h1 with h2 h3
    injection h2 with h4 h5
    exact absurd h4 h
  · rename_i heq
    injection heq with h1
    injection h1 with h2 h3
    injection h2 with h4 h5
    exact absurd h4 h
  · rename_i heq
    injection heq with h1
    subst h1
    rfl

mutual
theorem decodeAnn_encodeAnn (e : AnnVal) (h : noMatcherKey e = true) :
    decodeAnn (encodeAnn e) = some e := by
  cases e with
  | str r s =>
    cases r with
    | none => rfl
    | some r0 => cases r0 <;> rfl
  | num r n =>
    cases r with
    | none => rfl
    | some r0 => cases r0 <;> rfl
  | bool r b =>
    cases r with
    | none => rfl
    | some r0 => cases r0 <;> rfl
  | arr r items =>
    have hi := decodeItems_encodeItems items (by simpa [noMatcherKey] using h)
    cases r with
    | none =>
      show (decodeItems (encodeItems items)).map (AnnVal.arr none) = _
      rw [hi]
      rfl
    | some r0 =>
      cases r0 with
      | type =>
        show ((decodeItems (encodeItems items)).map (AnnVal.arr none)).map (setRule .type) = _
        rw [hi]
        rfl
      | equality =>
        show ((decodeItems (encodeItems items)).map (AnnVal.arr none)).map
            (setRule .equality) = _
        rw [hi]
        rfl
      | regex pat =>
        show ((decodeItems (encodeItems items)).map (AnnVal.arr none)).map
            (setRule (.regex pat)) = _
        rw [hi]
        rfl
  | obj r fields =>
    have hf := decodeFields_encodeFields fields (by simpa [noMatcherKey] using h)
    have hobj : decodeAnn (.obj (encodeFields fields)) = some (.obj none fields) := by
      cases fields with
      | nil => rfl
      | cons p rest =>
        obtain ⟨k, v⟩ := p
        have hk : ¬ k = "pact:matcher:type" := by
          have h2 : noMatcherKeyFields ((k, v) :: rest) = true := by
            simpa [noMatcherKey] using h
          simp only [noMatcherKeyFields, Bool.and_eq_true, Bool.not_eq_true'] at h2
          simpa using h2.1.1
        rw [show encodeFields ((k, v) :: rest) =
              (k, encodeAnn v) :: encodeFields rest from rfl]
        rw [decodeAnn_obj_cons k (encodeAnn v) (encodeFields rest) hk]
        rw [show decodeFields ((k, encodeAnn v) :: encodeFields rest) =
              decodeFields (encodeFields ((k, v) :: rest)) from rfl, hf]
        rfl
    cases r with
    | none => exact hobj
    | some r0 =>
      cases r0 with
      | type =>
        show (decodeAnn (.obj (encodeFields fields))).map (setRule .type) = _
        rw [hobj]
        rfl
      | equality =>
        show (decodeAnn (.obj (encodeFields fields))).map (setRule .equality) = _
        rw [hobj]
        rfl
      | regex pat =>
        show (decodeAnn (.obj (encodeFields fields))).map (setRule (.regex pat)) = _
        rw [hobj]
        rfl

theorem decodeFields_encodeFields (fs : List (String × AnnVal))
    (h : noMatcherKeyFields fs = true) : decodeFields (encodeFields fs) = some fs := by
  cases fs with
  | nil => rfl
  | cons p rest =>
    obtain ⟨k, v⟩ := p
    simp only [noMatcherKeyFields, Bool.and_eq_true] at h
    rw [show encodeFields ((k, v) :: rest) = (k, encodeAnn v) :: encodeFields rest from rfl,
      decodeFields, decodeAnn_encodeAnn v h.1.2, decodeFields_encodeFields rest h.2]
    rfl

theorem decodeItems_encodeItems (items : List AnnVal)
    (h : noMatcherKeyItems items = true) : decodeItems (encodeItems items) = some items := by
  cases items with
  | nil => rfl
  | cons v rest =>
    simp only [noMatcherKeyItems, Bool.and_eq_true] at h
    rw [show encodeItems (v :: rest) = encodeAnn v :: encodeItems rest from rfl,
      decodeItems, decodeAnn_encodeAnn v h.1, decodeItems_encodeItems rest h.2]
    rfl
end

theorem decodeStrFields_encode (hs : List (String × String)) :
    decodeStrFields (hs.map (fun p => (p.1, .str p.2))) = some hs := by
  induction hs with
  | nil => rfl
  | cons p rest ih =>
    obtain ⟨k, v⟩ := p
    show (decodeStrFields (rest.map (fun p => (p.1, .str p.2)))).map
        (fun t => (k, v) :: t) = _
    rw [ih]
    rfl

theorem decodeStrMap_encodeStrMap (hs : List (String × String)) :
    decodeStrMap (encodeStrMap hs) = some hs :=
  decodeStrFields_encode hs

theorem decodeRequest_encodeRequest (r : Request)
    (h : (match r.body with | some b => noMatcherKey b | none => true) = true) :
    decodeRequest (encodeRequest r) = some r := by
  obtain ⟨m, p, q, hs, b⟩ := r
  cases b with
  | none =>
    simp [encodeRequest, decodeRequest, lookupField, asStr, decodeStrMap_encodeStrMap]
  | some body =>
    simp only at h
    simp [encodeRequest, decodeRequest, lookupField, asStr, decodeStrMap_encodeStrMap,
      decodeAnn_encodeAnn body h]

theorem decodeResponse_encodeResponse (r : Response)
    (h : (match r.body with | some b => noMatcherKey b | none => true) = true) :
    decodeResponse (encodeResponse r) = some r := by
  obtain ⟨s, hs, b⟩ := r
  cases b with
  | none =>
    simp [encodeResponse, decodeResponse, lookupField, asStr, decodeStrMap_encodeStrMap]
  | some body =>
    simp only at h
    simp [encodeResponse, decodeResponse, lookupField, asStr, decodeStrMap_encodeStrMap,
      decodeAnn_encodeAnn body h]

theorem decodeInteraction_encodeInteraction (i : Interaction)
    (h : wfInteraction i = true) :
    decodeInteraction (encodeInteraction i) = some i := by
  obtain ⟨d, ps, rq, rs⟩ := i
  simp only [wfInteraction, Bool.and_eq_true] at h
  cases ps with
  | none =>
    simp [encodeInteraction, decodeInteraction, lookupField, asStr,
      decodeRequest_encodeRequest rq h.1, decodeResponse_encodeResponse rs h.2]
  | some st =>
    simp [encodeInteraction, decodeInteraction, lookupField, asStr,
      decodeRequest_encodeRequest rq h.1, decodeResponse_encodeResponse rs h.2]

theorem decodeInteractions_encode (l : List Interaction)
    (h : l.all wfInteraction = true) :
    decodeInteractions (encodeInteractions l) = some l := by
  induction l with
  | nil => rfl
  | cons i rest ih =>
    simp only [List.all_cons, Bool.and_eq_true] at h
    rw [show encodeInteractions (i :: rest) =
          encodeInteraction i :: encodeInteractions rest from rfl,
      decodeInteractions, decodeInteraction_encodeInteraction i h.1, ih h.2]
    rfl

theorem parsePact_serializePact (p : Pact) (h : wellFormedPact p = true) :
    parsePact (serializePact p) =
      some ⟨p.consumer, p.provider, p.interactions, [], p.metadata⟩ := by
  obtain ⟨c, pr, ints, msgs, md⟩ := p
  simp only [wellFormedPact] at h
  simp [serializePact, parsePact, lookupField, asStr, decodeStrMap_encodeStrMap,
    decodeInteractions_encode ints h]

/-- C6: serializing a pact with N interactions and re-parsing the contract
document recovers exactly N interactions identical to the originals
(descriptions, requests and responses included), along with the consumer
and provider identities and the metadata. -/
theorem pact_roundtrip_recovers_interactions (p : Pact) (h : wellFormedPact p = true) :
    ∃ q, parsePact (serializePact p) = some q ∧
      q.interactions.length = p.interactions.length ∧
      q.interactions = p.interactions ∧
      q.interactions.map Interaction.description =
        p.interactions.map Interaction.description ∧
      q.interactions.map Interaction.request = p.interactions.map Interaction.request ∧
      q.interactions.map Interaction.response = p.interactions.map Interaction.response ∧
      q.consumer = p.consumer ∧ q.provider = p.provider ∧ q.metadata = p.metadata :=
  ⟨_, parsePact_serializePact p h, rfl, rfl, rfl, rfl, rfl, rfl, rfl, rfl⟩

/-- Witness for C6: the two-interaction Alice Service pact round-trips. -/
theorem pact_roundtrip_recovers_interactions_witness :
    wellFormedPact malloryPactV2 = true ∧
    ∃ q, parsePact (serializePact malloryPactV2) = some q ∧
      q.interactions.length = malloryPactV2.interactions.length ∧
      q.interactions = malloryPactV2.interactions ∧
      q.interactions.map Interaction.description =
        malloryPactV2.interactions.map Interaction.description ∧
      q.interactions.map Interaction.request =
        malloryPactV2.interactions.map Interaction.request ∧
      q.interactions.map Interaction.response =
        malloryPactV2.interactions.map Interaction.response ∧
      q.consumer = malloryPactV2.consumer ∧ q.provider = malloryPactV2.provider ∧
      q.metadata = malloryPactV2.metadata :=
  ⟨by decide, pact_roundtrip_recovers_interactions malloryPactV2 (by decide)⟩

theorem preAt_exists_cons (path : List String) (e : AnnVal) :
    ∃ rest, preAt path e = path :: rest := by
  cases e <;> exact ⟨_, rfl⟩

theorem single_paths_sublist (m : Mismatch) (rest : List (List String)) :
    ([m].map Mismatch.path).Sublist (m.path :: rest) := by
  simp [List.singleton_sublist]

theorem ruleCheck_paths_sublist (path : List String) (r : MatchingRule) (e : AnnVal)
    (a : RawVal) : ((ruleCheck path r e a).map Mismatch.path).Sublist (preAt path e) := by
  obtain ⟨rest, hr⟩ := preAt_exists_cons path e
  rw [hr]
  cases r with
  | regex pat =>
    show ((if regexFullMatch pat (stringifyRaw a) then [] else
        [⟨path, pat, stringifyRaw a, "Expected to match the regular expression"⟩]).map
        Mismatch.path).Sublist _
    split
    · exact List.nil_sublist _
    · exact single_paths_sublist _ rest
  | type =>
    show ((if typeOfAnn e == typeOfRaw a then [] else
        [⟨path, typeName (typeOfAnn e), typeName (typeOfRaw a),
          "Expected a value of the same type"⟩]).map Mismatch.path).Sublist _
    split
    · exact List.nil_sublist _
    · exact single_paths_sublist _ rest
  | equality =>
    show ((if beqRaw (reifyVal e) a then [] else
        [⟨path, stringifyRaw (reifyVal e), stringifyRaw a, "Expected to be equal"⟩]).map
        Mismatch.path).Sublist _
    split
    · exact List.nil_sublist _
    · exact single_paths_sublist _ rest

mutual
theorem evalAt_paths_sublist (path : List String) (e : AnnVal) (a : RawVal) :
    ((evalAt false path e a).map Mismatch.path).Sublist (preAt path e) := by
  cases e with
  | str r s =>
    cases r with
    | some r0 => exact ruleCheck_paths_sublist path r0 (.str (some r0) s) a
    | none =>
      cases a with
      | str t =>
        show ((if s == t then [] else
            [⟨path, s, t, "Expected string to equal"⟩]).map Mismatch.path).Sublist [path]
        split
        · exact List.nil_sublist _
        · exact single_paths_sublist _ []
      | num n => exact single_paths_sublist _ []
      | bool b => exact single_paths_sublist _ []
      | obj afs => exact single_paths_sublist _ []
      | arr axs => exact single_paths_sublist _ []
  | num r n =>
    cases r with
    | some r0 => exact ruleCheck_paths_sublist path r0 (.num (some r0) n) a
    | none =>
      cases a with
      | num m =>
        show ((if n == m then [] else
            [⟨path, toString n, toString m, "Expected number to equal"⟩]).map
            Mismatch.path).Sublist [path]
        split
        · exact List.nil_sublist _
        · exact single_paths_sublist _ []
      | str t => exact single_paths_sublist _ []
      | bool b => exact single_paths_sublist _ []
      | obj afs => exact single_paths_sublist _ []
      | arr axs => exact single_paths_sublist _ []
  | bool r b =>
    cases r with
    | some r0 => exact ruleCheck_paths_sublist path r0 (.bool (some r0) b) a
    | none =>
      cases a with
      | bool c =>
        show ((if b == c then [] else
            [⟨path, stringifyRaw (.bool b), stringifyRaw (.bool c),
              "Expected boolean to equal"⟩]).map Mismatch.path).Sublist [path]
        split
        · exact List.nil_sublist _
        · exact single_paths_sublist _ []
      | str t => exact single_paths_sublist _ []
      | num n => exact single_paths_sublist _ []
      | obj afs => exact single_paths_sublist _ []
      | arr axs => exact single_paths_sublist _ []
  | obj r fields =>
    cases r with
    | some r0 => exact ruleCheck_paths_sublist path r0 (.obj (some r0) fields) a
    | none =>
      cases a with
      | obj afields =>
        show ((evalFields false path fields afields).map Mismatch.path).Sublist
          (path :: preFields path fields)
        exact (evalFields_paths_sublist path fields afields).trans
          (List.sublist_cons_self path _)
      | str t => exact single_paths_sublist _ _
      | num n => exact single_paths_sublist _ _
      | bool b => exact single_paths_sublist _ _
      | arr axs => exact single_paths_sublist _ _
  | arr r items =>
    cases r with
    | some r0 => exact ruleCheck_paths_sublist path r0 (.arr (some r0) items) a
    | none =>
      cases a with
      | arr aitems =>
        show ((evalItems false path 0 items aitems).map Mismatch.path).Sublist
          (path :: preItems path 0 items)
        exact (evalItems_paths_sublist path 0 items aitems).trans
          (List.sublist_cons_self path _)
      | str t => exact single_paths_sublist _ _
      | num n => exact single_paths_sublist _ _
      | bool b => exact single_paths_sublist _ _
      | obj afs => exact single_paths_sublist _ _

theorem evalFields_paths_sublist (path : List String) (fs : List (String × AnnVal))
    (afs : List (String × RawVal)) :
    ((evalFields false path fs afs).map Mismatch.path).Sublist (preFields path fs) := by
  cases fs with
  | nil => exact List.nil_sublist _
  | cons p rest =>
    obtain ⟨k, v⟩ := p
    show (((match lookupField k afs with
            | some av => evalAt false (path ++ [k]) v av
            | none => [⟨path ++ [k], stringifyRaw (reifyVal v), "",
                        "Expected key to be present"⟩]) ++
          evalFields false path rest afs).map Mismatch.path).Sublist
      (preAt (path ++ [k]) v ++ preFields path rest)
    rw [List.map_append]
    refine List.Sublist.append ?_ (evalFields_paths_sublist path rest afs)
    cases hl : lookupField k afs with
    | some av => exact evalAt_paths_sublist (path ++ [k]) v av
    | none =>
      obtain ⟨r2, hr⟩ := preAt_exists_cons (path ++ [k]) v
      rw [hr]
      exact single_paths_sublist _ r2

theorem evalItems_paths_sublist (path : List String) (i : Nat) (items : List AnnVal)
    (aitems : List RawVal) :
    ((evalItems false path i items aitems).map Mismatch.path).Sublist
      (preItems path i items) := by
  cases items with
  | nil => exact List.nil_sublist _
  | cons v rest =>
    cases aitems with
    | nil =>
      show ((⟨path ++ [toString i], stringifyRaw (reifyVal v), "",
              "Expected an element but actual array is shorter"⟩ ::
            evalItems false path (i + 1) rest []).map Mismatch.path).Sublist
        (preAt (path ++ [toString i]) v ++ preItems path (i + 1) rest)
      obtain ⟨r2, hr⟩ := preAt_exists_cons (path ++ [toString i]) v
      rw [List.map_cons, hr, List.cons_append]
      refine List.Sublist.cons₂ _ ?_
      exact (evalItems_paths_sublist path (i + 1) rest []).trans
        (List.sublist_append_right r2 _)
    | cons av arest =>
      show ((evalAt false (path ++ [toString i]) v av ++
            evalItems false path (i + 1) rest arest).map Mismatch.path).Sublist
        (preAt (path ++ [toString i]) v ++ preItems path (i + 1) rest)
      rw [List.map_append]
      exact List.Sublist.append (evalAt_paths_sublist (path ++ [toString i]) v av)
        (evalItems_paths_sublist path (i + 1) rest arest)
end

/-- C9: the Evaluator is deterministic (equal inputs give the same mismatch
sequence), and in the default non-strict mode the mismatch sequence follows
the pre-order traversal of the expected structure: its paths form a
sublist of the expected structure's pre-order path listing. -/
theorem evaluator_deterministic_preorder :
    (∀ strict e a, evaluate strict e a = evaluate strict e a) ∧
    (∀ e a, ((evaluate false e a).map Mismatch.path).Sublist (preorderPaths e)) :=
  ⟨fun _ _ _ => rfl, fun e a => evalAt_paths_sublist [] e a⟩

end PactSpec
